import Mathlib

/-!
# Crew-Map: live positions, markers and day-bucketed trails

A shallow embedding of the state-handling code of `src/components/MapView.jsx`,
`src/utils/helpers.js` and `src/lib/traccar.js`, followed by theorems about it.

Conventions of the embedding

* A plain JavaScript object used as a dictionary is a `JsObject`: the list of its
  own properties (key, value) in creation order, with at most one entry per key.
  `JsObject.set` is the assignment `o[k] = v`, `JsObject.get` the read `o[k]`
  (`none` is `undefined`), `JsObject.spread` the literal `{ ...a, ...b }` and
  `JsObject.entries` the enumeration `Object.entries(o)`.
* A device id is carried as the string it is converted to both by the property
  access `posMap[pos.deviceId]` and by `String(deviceId)`.
* A JavaScript value that is either a string or `undefined`/`null` is an
  `Option String`; `jsOr` is the operator `||` on such values.
* Coordinates are only ever copied by the code; they are rationals here.
* Only own properties of objects are modelled: the keys that occur (device ids, member
  ids) are identifiers handed out by the services, not names of `Object.prototype`.
* `Date.prototype.toISOString` is the built-in of the language, defined here after
  ECMAScript: `Day`, `DayFromYear`, `YearFromTime`, `MonthFromTime`, `DateFromTime`.
* The methods of the provider client that send requests pass a `World` along: the
  provider, the transport to it and the requests sent. The push channel is a state
  machine: the `TraccarClient` object, stepped by the events that reach it.
-/

namespace CrewMap

/-! ## JavaScript objects as dictionaries -/

/-- Own properties of a plain object, in creation order. -/
abbrev JsObject (β : Type) := List (String × β)

namespace JsObject

variable {β : Type}

/-- The property names, in creation order. -/
def keys (o : JsObject β) : List String := o.map Prod.fst

/-- The read `o[k]`; `none` stands for `undefined`. -/
def get (o : JsObject β) (k : String) : Option β :=
  match o with
  | [] => none
  | (k', v') :: rest => if k' = k then some v' else get rest k

/-- The assignment `o[k] = v`: an existing property keeps its place and takes the new
value, a new property is created after all the others. -/
def set (o : JsObject β) (k : String) (v : β) : JsObject β :=
  match o with
  | [] => [(k, v)]
  | (k', v') :: rest => if k' = k then (k, v) :: rest else (k', v') :: set rest k v

/-- Assigning a list of properties one after the other. -/
def assignAll (o : JsObject β) (es : List (String × β)) : JsObject β :=
  es.foldl (fun acc e => acc.set e.1 e.2) o

/-- The object literal `{ ...a, ...b }`: the properties of `a`, then those of `b` assigned
over them. -/
def spread (a b : JsObject β) : JsObject β := assignAll a b

/-- Numeric value of a decimal digit character. -/
def digitVal (c : Char) : Nat := c.toNat - 48

/-- The array index a property name denotes, if it is one: a canonical decimal numeral
(no leading zero) below `2^32 - 1`. -/
def arrayIndex? (k : String) : Option Nat :=
  match k.data with
  | [] => none
  | c :: cs =>
    if (c :: cs).all Char.isDigit && (c != '0' || cs.isEmpty) then
      let n := (c :: cs).foldl (fun acc d => 10 * acc + digitVal d) 0
      if n < 4294967295 then some n else none
    else none

/-- Whether a property name is an array index. -/
def isIndexKey (e : String × β) : Bool := (arrayIndex? e.1).isSome

/-- The order in which array-index properties are enumerated. -/
def indexLe (a b : String × β) : Prop :=
  (arrayIndex? a.1).getD 0 ≤ (arrayIndex? b.1).getD 0

instance : DecidableRel (indexLe : String × β → String × β → Prop) :=
  fun a b => inferInstanceAs (Decidable ((arrayIndex? a.1).getD 0 ≤ (arrayIndex? b.1).getD 0))

/-- The enumeration `Object.entries(o)`: array-index properties in ascending numeric order,
then the other properties in creation order. -/
def entries (o : JsObject β) : List (String × β) :=
  (o.filter isIndexKey).insertionSort indexLe ++ o.filter (fun e => !isIndexKey e)

end JsObject

/-! ## Records -/

/-- A coordinate (a finite JavaScript number, only copied by the code). -/
abbrev Coord := ℚ

/-- The operator `a || b` on values that are a string or `undefined`: `a` when it is
truthy (a non-empty string), else `b`. -/
def jsOr (a b : Option String) : Option String :=
  match a with
  | some s => if s = "" then b else some s
  | none => b

/-- A position record of the tracking provider, with the fields the code reads. -/
structure Position where
  deviceId : String
  latitude : Coord
  longitude : Coord
  fixTime : Option String
  deviceTime : Option String
deriving DecidableEq

/-- A value of the `memberPositions` state. -/
structure LivePosition where
  latitude : Coord
  longitude : Coord
  timestamp : Option String
deriving DecidableEq

/-- A row of `crew_members`, with the fields the code reads. -/
structure Member where
  id : String
  name : String
  color : String
  traccar_device_id : String
deriving DecidableEq

/-! ## `updatePositions` -/

/-- The object stored under `posMap[pos.deviceId]` in `updatePositions`. -/
def Position.toLive (pos : Position) : LivePosition :=
  { latitude := pos.latitude
    longitude := pos.longitude
    timestamp := jsOr pos.fixTime pos.deviceTime }

/-- The local `posMap` of `updatePositions` after its `forEach`. -/
def posMapOf (positions : List Position) : JsObject LivePosition :=
  positions.foldl (fun posMap pos => posMap.set pos.deviceId pos.toLive) []

/-- The state update of `updatePositions(positions)`: the new `memberPositions`, given the
previous one, `prev => ({ ...prev, ...posMap })`. -/
def updatePositions (prev : JsObject LivePosition) (positions : List Position) :
    JsObject LivePosition :=
  JsObject.spread prev (posMapOf positions)

/-- The `memberPositions` state after a sequence of feed batches. -/
def deliver (prev : JsObject LivePosition) (batches : List (List Position)) :
    JsObject LivePosition :=
  batches.foldl updatePositions prev

/-- The last position of a device in a list of positions, in arrival order. -/
def lastFor (deviceId : String) (positions : List Position) : Option Position :=
  (positions.filter (fun p => p.deviceId = deviceId)).getLast?

/-- The properties `updatePositions` assigns, one per position of the batch. -/
def assignments (positions : List Position) : List (String × LivePosition) :=
  positions.map (fun pos => (pos.deviceId, pos.toLive))

/-! ## Member markers -/

/-- The function `getMemberForDevice`: the first roster member whose `traccar_device_id`
is `String(deviceId)`. -/
def getMemberForDevice (crewMembers : List Member) (deviceId : String) : Option Member :=
  crewMembers.find? (fun m => m.traccar_device_id == deviceId)

/-- A rendered `<Marker>`: the device id of its key `marker-${deviceId}`, its coordinates
and the member whose colour and name it shows. -/
structure Marker where
  deviceId : String
  latitude : Coord
  longitude : Coord
  member : Member
deriving DecidableEq

/-- The React key of a marker. -/
def Marker.key (mk : Marker) : String := "marker-" ++ mk.deviceId

/-- The body of the `map` callback that renders one entry of `memberPositions`; `none` is
the `null` returned when no member is found. -/
def renderMarker (crewMembers : List Member) (entry : String × LivePosition) : Option Marker :=
  match getMemberForDevice crewMembers entry.1 with
  | none => none
  | some member =>
    some { deviceId := entry.1
           latitude := entry.2.latitude
           longitude := entry.2.longitude
           member := member }

/-- The markers `MapView` renders: `Object.entries(memberPositions).map(...)`, the `null`
results rendering nothing. -/
def memberMarkers (crewMembers : List Member) (memberPositions : JsObject LivePosition) :
    List Marker :=
  (JsObject.entries memberPositions).filterMap (renderMarker crewMembers)

/-! ## Trails -/

/-- A row of `location_trails`, with the fields the code reads or writes. -/
structure TrailPoint where
  member_id : String
  crew_id : String
  latitude : Coord
  longitude : Coord
  timestamp : String
  day_marker : String
deriving DecidableEq

/-- The `geometry` of the GeoJSON feature built by `getTrailGeoJSON`. -/
structure Geometry where
  type : String
  coordinates : List (List Coord)
deriving DecidableEq

/-- The GeoJSON feature built by `getTrailGeoJSON`. -/
structure Feature where
  type : String
  geometry : Geometry
deriving DecidableEq

/-- The function `getTrailGeoJSON`; `none` is `null`. An array is truthy, so
`trails[memberId] || []` is the stored array, or `[]` when there is none. -/
def getTrailGeoJSON (trails : JsObject (List TrailPoint)) (memberId : String) :
    Option Feature :=
  let memberTrails := (trails.get memberId).getD []
  if memberTrails.length < 2 then none
  else
    let coordinates := memberTrails.map (fun point => [point.longitude, point.latitude])
    some { type := "Feature"
           geometry := { type := "LineString", coordinates := coordinates } }

/-- The statement `o[k].push(x)` on an object of arrays (nothing happens here when `o[k]`
is missing, where JavaScript would throw; `groupStep` creates the array first). -/
def pushAt (o : JsObject (List TrailPoint)) (k : String) (x : TrailPoint) :
    JsObject (List TrailPoint) :=
  match o.get k with
  | some arr => o.set k (arr ++ [x])
  | none => o

/-- One round of the `forEach` of `fetchTrails`. -/
def groupStep (trailsByMember : JsObject (List TrailPoint)) (point : TrailPoint) :
    JsObject (List TrailPoint) :=
  let initialised :=
    if (trailsByMember.get point.member_id).isNone then trailsByMember.set point.member_id []
    else trailsByMember
  pushAt initialised point.member_id point

/-- The object `trailsByMember` that `fetchTrails` builds from the rows. -/
def groupByMember (rows : List TrailPoint) : JsObject (List TrailPoint) :=
  rows.foldl groupStep []

/-- The answer `{ data, error }` of the store to a query. -/
structure QueryResult where
  data : Option (List TrailPoint)
  error : Option String
deriving DecidableEq

/-- The function `fetchTrails`, from the answer of the store to its query (the rows of the
crew whose `day_marker` is `formatDayMarker()`, by ascending `timestamp`) to the new
`trails` state: an error is caught and leaves the state as it was. -/
def fetchTrails (prev : JsObject (List TrailPoint)) (result : QueryResult) :
    JsObject (List TrailPoint) :=
  match result.error with
  | some _ => prev
  | none => groupByMember (result.data.getD [])

/-- The state update of `handleNewTrailPoint(point)`:
`{ ...prev, [point.member_id]: [...memberTrails, point] }`. -/
def handleNewTrailPoint (prev : JsObject (List TrailPoint)) (point : TrailPoint) :
    JsObject (List TrailPoint) :=
  let memberTrails := (prev.get point.member_id).getD []
  prev.set point.member_id (memberTrails ++ [point])

/-- All the points held in a `trails` state. -/
def allPoints (trails : JsObject (List TrailPoint)) : List TrailPoint :=
  (trails.map Prod.snd).flatten

/-! ## Dates (`Date.prototype.toISOString`) and `formatDayMarker` -/

/-- A valid `Date`: its time value in milliseconds since the epoch, which the language
keeps within 8.64e15 of zero. -/
structure JsDate where
  time : Int
  valid : time.natAbs ≤ 8640000000000000
deriving DecidableEq

/-- Milliseconds per day. -/
def msPerDay : Int := 86400000

/-- The day number of a time value, `Day(t) = floor(t / msPerDay)`. -/
def day (t : Int) : Int := t / msPerDay

/-- The day number of the first day of year `y`, `DayFromYear(y)`. -/
def dayFromYear (y : Int) : Int :=
  365 * (y - 1970) + (y - 1969) / 4 - (y - 1901) / 100 + (y - 1601) / 400

/-- The length of year `y`, `DaysInYear(y)`. -/
def daysInYear (y : Int) : Int :=
  if y % 4 ≠ 0 then 365
  else if y % 100 ≠ 0 then 366
  else if y % 400 ≠ 0 then 365
  else 366

/-- The year a day number falls in: the largest `y` with `DayFromYear(y) ≤ d`, found from
the estimate `1970 + floor(400 d / 146097)`, which is off by at most one. -/
def yearFromDay (d : Int) : Int :=
  let y := 1970 + (400 * d) / 146097
  if d < dayFromYear y then y - 1
  else if dayFromYear (y + 1) ≤ d then y + 1
  else y

/-- The year of a time value, `YearFromTime(t)`. -/
def yearFromTime (t : Int) : Int := yearFromDay (day t)

/-- Whether the year is a leap year, `InLeapYear(t)` as 0 or 1. -/
def leapOfYear (y : Int) : Int := if daysInYear y = 366 then 1 else 0

/-- The day within the year, `DayWithinYear(t)`, from the day number. -/
def dayWithinYear (d : Int) : Int := d - dayFromYear (yearFromDay d)

/-- The month (0 to 11) of day `w` of a year, `leap` being 1 in a leap year:
the table of `MonthFromTime`. -/
def monthOfDayWithinYear (w leap : Int) : Int :=
  if w < 31 then 0
  else if w < 59 + leap then 1
  else if w < 90 + leap then 2
  else if w < 120 + leap then 3
  else if w < 151 + leap then 4
  else if w < 181 + leap then 5
  else if w < 212 + leap then 6
  else if w < 243 + leap then 7
  else if w < 273 + leap then 8
  else if w < 304 + leap then 9
  else if w < 334 + leap then 10
  else 11

/-- The day of the month (1 to 31) of day `w` of a year: the table of `DateFromTime`. -/
def dateOfDayWithinYear (w leap : Int) : Int :=
  match monthOfDayWithinYear w leap with
  | 0 => w + 1
  | 1 => w - 30
  | 2 => w - 58 - leap
  | 3 => w - 89 - leap
  | 4 => w - 119 - leap
  | 5 => w - 150 - leap
  | 6 => w - 180 - leap
  | 7 => w - 211 - leap
  | 8 => w - 242 - leap
  | 9 => w - 272 - leap
  | 10 => w - 303 - leap
  | _ => w - 333 - leap

/-- The day within the year on which month `m` (0 to 11) starts, `leap` being 1 in a leap
year. -/
def monthStart (m leap : Int) : Int :=
  match m with
  | 0 => 0
  | 1 => 31
  | 2 => 59 + leap
  | 3 => 90 + leap
  | 4 => 120 + leap
  | 5 => 151 + leap
  | 6 => 181 + leap
  | 7 => 212 + leap
  | 8 => 243 + leap
  | 9 => 273 + leap
  | 10 => 304 + leap
  | _ => 334 + leap

/-- The month of a time value, `MonthFromTime(t)`. -/
def monthFromTime (t : Int) : Int :=
  monthOfDayWithinYear (dayWithinYear (day t)) (leapOfYear (yearFromTime t))

/-- The day of the month of a time value, `DateFromTime(t)`. -/
def dateFromTime (t : Int) : Int :=
  dateOfDayWithinYear (dayWithinYear (day t)) (leapOfYear (yearFromTime t))

/-- The hour of a time value, `HourFromTime(t)`. -/
def hourFromTime (t : Int) : Int := (t / 3600000) % 24

/-- The minute of a time value, `MinFromTime(t)`. -/
def minFromTime (t : Int) : Int := (t / 60000) % 60

/-- The second of a time value, `SecFromTime(t)`. -/
def secFromTime (t : Int) : Int := (t / 1000) % 60

/-- The millisecond of a time value, `msFromTime(t)`. -/
def msFromTime (t : Int) : Int := t % 1000

/-- The decimal digit character of `n` modulo 10. -/
def digit (n : Nat) : Char := Nat.digitChar (n % 10)

/-- Two decimal digits, zero padded. -/
def pad2 (n : Nat) : List Char := [digit (n / 10), digit n]

/-- Three decimal digits, zero padded. -/
def pad3 (n : Nat) : List Char := [digit (n / 100), digit (n / 10), digit n]

/-- Four decimal digits, zero padded. -/
def pad4 (n : Nat) : List Char := [digit (n / 1000), digit (n / 100), digit (n / 10), digit n]

/-- Six decimal digits, zero padded. -/
def pad6 (n : Nat) : List Char :=
  [digit (n / 100000), digit (n / 10000), digit (n / 1000), digit (n / 100), digit (n / 10),
    digit n]

/-- The year of an ISO date-time string: four digits for the years 0 to 9999, else a sign
and six digits. -/
def isoYear (y : Int) : List Char :=
  if 0 ≤ y ∧ y ≤ 9999 then pad4 y.toNat
  else (if y < 0 then '-' else '+') :: pad6 y.natAbs

/-- The date part `YYYY-MM-DD` (or `±YYYYYY-MM-DD`) of an ISO date-time string. -/
def isoDate (t : Int) : List Char :=
  isoYear (yearFromTime t) ++ '-' :: pad2 (monthFromTime t + 1).toNat
    ++ '-' :: pad2 (dateFromTime t).toNat

/-- The time part `HH:mm:ss.sssZ` of an ISO date-time string. -/
def isoTime (t : Int) : List Char :=
  pad2 (hourFromTime t).toNat ++ ':' :: pad2 (minFromTime t).toNat
    ++ ':' :: pad2 (secFromTime t).toNat ++ '.' :: pad3 (msFromTime t).toNat ++ ['Z']

/-- The method `Date.prototype.toISOString` on a valid date, in UTC. -/
def toISOString (date : JsDate) : String :=
  String.mk (isoDate date.time ++ 'T' :: isoTime date.time)

/-- The expression `s.split(sep)[0]` for a one-character separator: the part of `s` before
the first `sep`, all of `s` when there is none. -/
def splitHead (s : String) (sep : Char) : String :=
  String.mk (s.data.takeWhile (fun c => c != sep))

/-- The function `formatDayMarker(date)`: `date.toISOString().split('T')[0]`. -/
def formatDayMarker (date : JsDate) : String :=
  splitHead (toISOString date) 'T'

/-- Whether a string has the form `YYYY-MM-DD`: ten characters, digits but for a `-` in
fifth and eighth place. -/
def isDayMarkerForm (s : String) : Bool :=
  match s.data with
  | [y1, y2, y3, y4, s1, m1, m2, s2, d1, d2] =>
    y1.isDigit && y2.isDigit && y3.isDigit && y4.isDigit && s1 == '-' &&
      m1.isDigit && m2.isDigit && s2 == '-' && d1.isDigit && d2.isDigit
  | _ => false

/-- The local time of a time value in a time zone `offsetMinutes` minutes east of UTC,
`LocalTime(t) = t + LocalTZA`. -/
def localTime (offsetMinutes : Int) (t : Int) : Int := t + offsetMinutes * 60000

/-- The calendar date of a date in a time zone `offsetMinutes` minutes east of UTC: the
year, the month (1 to 12) and the day of the month, as `getFullYear()`, `getMonth() + 1`
and `getDate()` give them on a device of that zone. -/
def calendarDate (offsetMinutes : Int) (date : JsDate) : Int × Int × Int :=
  (yearFromTime (localTime offsetMinutes date.time),
    monthFromTime (localTime offsetMinutes date.time) + 1,
    dateFromTime (localTime offsetMinutes date.time))

/-- The calendar date of a date in UTC, as `getUTCFullYear()`, `getUTCMonth() + 1` and
`getUTCDate()` give it. -/
def utcCalendarDate (date : JsDate) : Int × Int × Int := calendarDate 0 date

/-! ## `saveLocationToDatabase` -/

/-- The function `saveLocationToDatabase(position)`: the row it asks the store to insert,
`none` when it returns without an insert. `members` is `crewMembersRef.current`, `crewId`
is `session.crewId`; `nowTimestamp` is the clock read by `new Date()` in the `timestamp`
field (read only when both times of the position are falsy) and `nowDayMarker` the clock
read by the default argument of `formatDayMarker()`. -/
def saveLocationToDatabase (members : List Member) (crewId : String)
    (nowTimestamp nowDayMarker : JsDate) (position : Position) : Option TrailPoint :=
  match members.find? (fun m => m.traccar_device_id == position.deviceId) with
  | none => none
  | some member =>
    some { member_id := member.id
           crew_id := crewId
           latitude := position.latitude
           longitude := position.longitude
           timestamp :=
             match jsOr position.fixTime position.deviceTime with
             | some s => if s = "" then toISOString nowTimestamp else s
             | none => toISOString nowTimestamp
           day_marker := formatDayMarker nowDayMarker }

/-- The second loop of `updatePositions`, `positions.forEach(pos => saveLocationToDatabase(pos))`:
the inserts it asks of the store, in order. `clock i` are the two readings of the clock
in the call numbered `i`, the calls being numbered from `first`. -/
def saveBatch (members : List Member) (crewId : String) (clock : Nat → JsDate × JsDate)
    (first : Nat) : List Position → List TrailPoint
  | [] => []
  | position :: rest =>
    (saveLocationToDatabase members crewId (clock first).1 (clock first).2 position).toList
      ++ saveBatch members crewId clock (first + 1) rest

/-! ## `calculateTrailOpacity` -/

/-- The default value of `maxAge`, `24 * 60 * 60 * 1000`. -/
def defaultMaxAge : ℚ := 24 * 60 * 60 * 1000

/-- The function `calculateTrailOpacity(timestamp, maxAge)`. `now` is `Date.now()` and
`timestamp` the time value of `new Date(timestamp)`, both integers of milliseconds, so that
their difference is exact; `rnd` is the rounding of the exact result of an operation to a
number of the language (overflow and `NaN` left aside), applied to the literal `0.1`, to
the division and to the subtraction. -/
def calculateTrailOpacity (rnd : ℚ → ℚ) (now timestamp : Int) (maxAge : ℚ) : ℚ :=
  let age : ℚ := ((now - timestamp : Int) : ℚ)
  let opacity := max (rnd (1 / 10)) (rnd (1 - rnd (age / maxAge)))
  opacity

/-! ## The provider client (`src/lib/traccar.js`): requests -/

/-- A device record of the provider, with the fields the code reads. -/
structure Device where
  id : Nat
  name : String
  uniqueId : String
deriving DecidableEq

/-- A request the client sends to the provider. -/
inductive Request where
  | postSession
  | getDevices
  | postDevices (name uniqueId : String)
deriving DecidableEq

/-- What a request meets on its way: normal service, a failure of the transport (`fetch`
rejects), or an answer that is not `ok` with the given text. -/
inductive Fault where
  | normal
  | network
  | refused (text : String)
deriving DecidableEq

/-- What `fetch` gives the client: a rejection, an answer that is not `ok` with its text,
or an `ok` answer with its body (taken to be JSON of the expected shape). -/
inductive Response (α : Type) where
  | failed
  | notOk (text : String)
  | ok (body : α)

/-- An exception: the rejection of a `fetch`, or `new Error(text)`. -/
inductive JsError where
  | network
  | message (text : String)
deriving DecidableEq

deriving instance DecidableEq for Except

/-- Modelled from the spec: the tracking provider, an external service that is not in the
sources, and the transport to it. The provider holds the registered devices and the next
id to give; `faults` says what the coming requests meet, one item per request, normal
service when the list is exhausted; `log` keeps the requests sent so far. -/
structure World where
  devices : List Device
  nextId : Nat
  faults : List Fault
  log : List Request
deriving DecidableEq

/-- Modelled from the spec: a request is sent: it is logged and meets the next fault. -/
def World.meet (w : World) (r : Request) : Fault × World :=
  (w.faults.headD Fault.normal, { w with faults := w.faults.tail, log := w.log ++ [r] })

/-- Modelled from the spec: the provider's answer to `POST /api/session` with the fixed
credentials: a session, in normal service. -/
def World.serveSession (w : World) : World × Response Unit :=
  match w.meet Request.postSession with
  | (Fault.normal, w') => (w', Response.ok ())
  | (Fault.network, w') => (w', Response.failed)
  | (Fault.refused text, w') => (w', Response.notOk text)

/-- Modelled from the spec: the provider's answer to `GET /api/devices`: the registered
devices, in normal service. -/
def World.serveDevices (w : World) : World × Response (List Device) :=
  match w.meet Request.getDevices with
  | (Fault.normal, w') => (w', Response.ok w'.devices)
  | (Fault.network, w') => (w', Response.failed)
  | (Fault.refused text, w') => (w', Response.notOk text)

/-- Modelled from the spec: the text with which the provider refuses a second device with a
`uniqueId` it already has (a duplicate-key error). -/
def duplicateText (uniqueId : String) : String :=
  "Duplicate entry '" ++ uniqueId ++ "' for key 'uniqueid'"

/-- Modelled from the spec: the provider's answer to `POST /api/devices`: in normal service a
new device with a fresh id is registered and returned, unless a device with that `uniqueId`
is registered, which is a duplicate-key error. -/
def World.serveCreate (w : World) (name uniqueId : String) : World × Response Device :=
  match w.meet (Request.postDevices name uniqueId) with
  | (Fault.network, w') => (w', Response.failed)
  | (Fault.refused text, w') => (w', Response.notOk text)
  | (Fault.normal, w') =>
    if w'.devices.any (fun d => d.uniqueId == uniqueId) then
      (w', Response.notOk (duplicateText uniqueId))
    else
      ({ w' with devices := w'.devices ++ [⟨w'.nextId, name, uniqueId⟩]
                 nextId := w'.nextId + 1 },
        Response.ok ⟨w'.nextId, name, uniqueId⟩)

/-- The method `String.prototype.includes`: whether `sub` occurs in `s`. -/
def jsIncludes (s sub : String) : Bool :=
  s.data.tails.any (fun t => sub.data.isPrefixOf t)

/-- The method `authenticate()`: it throws when the answer is not `ok` and rethrows a
failure of the transport. -/
def authenticate (w : World) : World × Except JsError Unit :=
  match w.serveSession with
  | (w', Response.ok _) => (w', Except.ok ())
  | (w', Response.notOk _) => (w', Except.error (JsError.message "Traccar authentication failed"))
  | (w', Response.failed) => (w', Except.error JsError.network)

/-- The method `getDevices()`: the devices of the answer, and `[]` when the request fails
or the answer is not `ok` (the exception is caught). -/
def getDevices (w : World) : World × List Device :=
  match w.serveDevices with
  | (w', Response.ok devices) => (w', devices)
  | (w', Response.notOk _) => (w', [])
  | (w', Response.failed) => (w', [])

/-- The method `createDevice(deviceName, uniqueId)`: the device returned or the exception
thrown, and the world after its requests. -/
def createDevice (w : World) (deviceName uniqueId : String) : World × Except JsError Device :=
  match authenticate w with
  | (w₁, Except.error e) => (w₁, Except.error e)
  | (w₁, Except.ok _) =>
    match getDevices w₁ with
    | (w₂, devices) =>
      match devices.find? (fun d => d.uniqueId == uniqueId) with
      | some existingDevice => (w₂, Except.ok existingDevice)
      | none =>
        match w₂.serveCreate deviceName uniqueId with
        | (w₃, Response.failed) => (w₃, Except.error JsError.network)
        | (w₃, Response.ok device) => (w₃, Except.ok device)
        | (w₃, Response.notOk error) =>
          if jsIncludes error "Duplicate entry" || jsIncludes error "uniqueId" then
            match getDevices w₃ with
            | (w₄, devicesRetry) =>
              match devicesRetry.find? (fun d => d.uniqueId == uniqueId) with
              | some device => (w₄, Except.ok device)
              | none =>
                (w₄, Except.error (JsError.message ("Failed to create device: " ++ error)))
          else (w₃, Except.error (JsError.message ("Failed to create device: " ++ error)))

/-- Whether a request is a creation request, `POST /api/devices`. -/
def Request.isCreate : Request → Bool
  | Request.postDevices _ _ => true
  | _ => false

/-- The address `getPositions` asks: all positions, or those of the given devices. -/
def positionsUrl (server : String) (deviceIds : List String) : String :=
  if deviceIds.length > 0 then
    server ++ "/api/positions?" ++ "&".intercalate (deviceIds.map (fun id => "deviceId=" ++ id))
  else server ++ "/api/positions"

/-- The method `getPositions(deviceIds)`, `fetch` giving the outcome of the request to an
address: the positions of an `ok` answer, and `[]` when the request fails or the answer is
not `ok` (the exception is caught). -/
def getPositions (fetch : String → Response (List Position)) (server : String)
    (deviceIds : List String) : List Position :=
  match fetch (positionsUrl server deviceIds) with
  | Response.ok positions => positions
  | Response.notOk _ => []
  | Response.failed => []

/-! ## The provider client: the push channel -/

/-- The `readyState` of a socket. -/
inductive ReadyState where
  | CONNECTING
  | OPEN
  | CLOSING
  | CLOSED
deriving DecidableEq

/-- The `TraccarClient` object and what it has set going: `ws` is the number of the socket
`this.ws` refers to (`none` is `null`), `sockets` the sockets created so far with their
`readyState`, `timeouts` the delays of the `setTimeout` calls made so far, each of which
calls `connectWebSocket` when it fires. -/
structure TraccarClient where
  ws : Option Nat
  reconnectAttempts : Nat
  listeners : List String
  sockets : List ReadyState
  timeouts : List Nat
deriving DecidableEq

/-- The field `maxReconnectAttempts`, set once by the constructor. -/
def maxReconnectAttempts : Nat := 5

/-- The constructor of `TraccarClient`. -/
def TraccarClient.create : TraccarClient :=
  { ws := none, reconnectAttempts := 0, listeners := [], sockets := [], timeouts := [] }

/-- The delay computed by `reconnect` once `reconnectAttempts` is incremented:
`Math.min(1000 * Math.pow(2, this.reconnectAttempts), 30000)`. -/
def reconnectDelay (reconnectAttempts : Nat) : Nat :=
  min (1000 * 2 ^ reconnectAttempts) 30000

/-- The method `connectWebSocket(onMessage)`: nothing when `this.ws` is an open socket, else
a new socket is created and held in `this.ws`. -/
def connectWebSocket (c : TraccarClient) : TraccarClient :=
  match c.ws with
  | some i =>
    if c.sockets[i]? = some ReadyState.OPEN then c
    else { c with ws := some c.sockets.length, sockets := c.sockets ++ [ReadyState.CONNECTING] }
  | none => { c with ws := some c.sockets.length, sockets := c.sockets ++ [ReadyState.CONNECTING] }

/-- The method `reconnect(onMessage)`. -/
def reconnect (c : TraccarClient) : TraccarClient :=
  if c.reconnectAttempts ≥ maxReconnectAttempts then c
  else
    { c with reconnectAttempts := c.reconnectAttempts + 1
             timeouts := c.timeouts ++ [reconnectDelay (c.reconnectAttempts + 1)] }

/-- The handler `ws.onopen` set by `connectWebSocket`. -/
def onopen (c : TraccarClient) : TraccarClient :=
  { c with reconnectAttempts := 0 }

/-- The handler `ws.onclose` set by `connectWebSocket`. -/
def onclose (c : TraccarClient) : TraccarClient :=
  reconnect c

/-- The method `close()` of the socket numbered `i`: a socket that is connecting or open
starts closing, one that is closing or closed is left as it is. -/
def closeSocket (sockets : List ReadyState) (i : Nat) : List ReadyState :=
  match sockets[i]? with
  | some ReadyState.CLOSING => sockets
  | some ReadyState.CLOSED => sockets
  | _ => sockets.set i ReadyState.CLOSING

/-- The method `disconnect()`. -/
def disconnect (c : TraccarClient) : TraccarClient :=
  match c.ws with
  | some i =>
    { c with sockets := closeSocket c.sockets i, ws := none, listeners := [] }
  | none => { c with listeners := [] }

/-- What happens to the client: a socket opens or closes (its handler runs), a timeout set
by `reconnect` fires, the user calls `connectWebSocket` or `disconnect`. -/
inductive Event where
  | socketOpened (socket : Nat)
  | socketClosed (socket : Nat)
  | timeoutFired
  | connectCalled
  | disconnectCalled
deriving DecidableEq

/-- Whether the event is a successful open. -/
def Event.isOpened : Event → Bool
  | Event.socketOpened _ => true
  | _ => false

/-- Whether the event is a closure of the channel. -/
def Event.isClosed : Event → Bool
  | Event.socketClosed _ => true
  | _ => false

/-- The client after an event. -/
def step (c : TraccarClient) : Event → TraccarClient
  | Event.socketOpened i => onopen { c with sockets := c.sockets.set i ReadyState.OPEN }
  | Event.socketClosed i => onclose { c with sockets := c.sockets.set i ReadyState.CLOSED }
  | Event.timeoutFired => connectWebSocket c
  | Event.connectCalled => connectWebSocket c
  | Event.disconnectCalled => disconnect c

/-- The client after a sequence of events. -/
def run (c : TraccarClient) (events : List Event) : TraccarClient :=
  events.foldl step c

/-! # Theorems -/

/-! ## Lemmas on objects -/

namespace JsObject

variable {β : Type}

theorem get_set (o : JsObject β) (k k' : String) (v : β) :
    (o.set k v).get k' = if k = k' then some v else o.get k' := by
  induction o with
  | nil => simp [set, get]
  | cons e rest ih =>
    obtain ⟨a, b⟩ := e
    by_cases h : a = k
    · subst h
      by_cases h' : a = k' <;> simp [set, get, h']
    · by_cases h' : a = k'
      · subst h'
        have : ¬ k = a := fun h'' => h h''.symm
        simp [set, get, h, this]
      · simp [set, get, h, h', ih]

theorem keys_set_of_mem (o : JsObject β) (k : String) (v : β) (h : k ∈ o.keys) :
    (o.set k v).keys = o.keys := by
  induction o with
  | nil => simp [keys] at h
  | cons e rest ih =>
    obtain ⟨a, b⟩ := e
    by_cases hk : a = k
    · subst hk; simp [set, keys]
    · have hmem : k ∈ keys rest := by
        simp only [keys, List.map_cons, List.mem_cons] at h
        rcases h with h | h
        · exact absurd h.symm hk
        · exact h
      have := ih hmem
      simp only [keys] at this
      simp [set, keys, hk, this]

theorem keys_set_of_not_mem (o : JsObject β) (k : String) (v : β) (h : k ∉ o.keys) :
    (o.set k v).keys = o.keys ++ [k] := by
  induction o with
  | nil => simp [set, keys]
  | cons e rest ih =>
    obtain ⟨a, b⟩ := e
    simp only [keys, List.map_cons, List.mem_cons, not_or] at h
    have hk : ¬ a = k := fun h' => h.1 h'.symm
    have := ih h.2
    simp only [keys] at this
    simp [set, keys, hk, this]

theorem mem_keys_set (o : JsObject β) (k k' : String) (v : β) :
    k' ∈ (o.set k v).keys ↔ k' = k ∨ k' ∈ o.keys := by
  by_cases h : k ∈ o.keys
  · rw [keys_set_of_mem o k v h]
    constructor
    · exact fun h' => Or.inr h'
    · rintro (rfl | h')
      · exact h
      · exact h'
  · rw [keys_set_of_not_mem o k v h]
    simp [or_comm]

theorem nodup_keys_set (o : JsObject β) (k : String) (v : β) (h : o.keys.Nodup) :
    (o.set k v).keys.Nodup := by
  by_cases hk : k ∈ o.keys
  · rw [keys_set_of_mem o k v hk]; exact h
  · rw [keys_set_of_not_mem o k v hk]
    exact List.Nodup.append h (List.nodup_singleton k) (by simpa using hk)

theorem nodup_keys_assignAll (es : List (String × β)) (o : JsObject β) (h : o.keys.Nodup) :
    (o.assignAll es).keys.Nodup := by
  induction es generalizing o with
  | nil => simpa [assignAll] using h
  | cons e es ih =>
    simp only [assignAll, List.foldl_cons]
    exact ih _ (nodup_keys_set o e.1 e.2 h)

theorem set_set (o : JsObject β) (k : String) (v w : β) :
    (o.set k v).set k w = o.set k w := by
  induction o with
  | nil => simp [set]
  | cons e rest ih =>
    obtain ⟨a, b⟩ := e
    by_cases h : a = k
    · simp [set, h]
    · simp [set, h, ih]

theorem set_comm (o : JsObject β) (k₁ k₂ : String) (v₁ v₂ : β) (hne : k₁ ≠ k₂)
    (hmem : k₁ ∈ o.keys) :
    (o.set k₁ v₁).set k₂ v₂ = (o.set k₂ v₂).set k₁ v₁ := by
  induction o with
  | nil => simp [keys] at hmem
  | cons e rest ih =>
    obtain ⟨a, b⟩ := e
    by_cases h1 : a = k₁
    · subst h1
      simp [set, hne]
    · have hrest : k₁ ∈ keys rest := by
        simp only [keys, List.map_cons, List.mem_cons] at hmem
        rcases hmem with h | h
        · exact absurd h.symm h1
        · exact h
      by_cases h2 : a = k₂
      · subst h2
        simp [set, h1]
      · simp [set, h1, h2, ih hrest]

theorem assignAll_append (o : JsObject β) (es fs : List (String × β)) :
    o.assignAll (es ++ fs) = (o.assignAll es).assignAll fs := by
  simp [assignAll, List.foldl_append]

theorem set_assignAll_of_mem (es : List (String × β)) (o : JsObject β) (k : String) (v : β)
    (hmem : k ∈ o.keys) (hnot : k ∉ keys es) :
    (o.assignAll es).set k v = (o.set k v).assignAll es := by
  induction es generalizing o with
  | nil => simp [assignAll]
  | cons e es ih =>
    obtain ⟨a, b⟩ := e
    simp only [keys, List.map_cons, List.mem_cons, not_or] at hnot
    have hne : k ≠ a := hnot.1
    have h1 : k ∈ (o.set a b).keys := (mem_keys_set o a k b).2 (Or.inr hmem)
    have := ih (o.set a b) h1 hnot.2
    simp only [assignAll, List.foldl_cons] at this ⊢
    rw [this, set_comm o k a v b hne hmem]

theorem assignAll_set (o : JsObject β) (m : JsObject β) (k : String) (v : β)
    (hnd : o.keys.Nodup) :
    m.assignAll (o.set k v) = (m.assignAll o).set k v := by
  induction o generalizing m with
  | nil => simp [assignAll, set]
  | cons e rest ih =>
    obtain ⟨a, b⟩ := e
    simp only [keys, List.map_cons, List.nodup_cons] at hnd
    by_cases h : a = k
    · subst h
      have hmem : a ∈ (m.set a b).keys := (mem_keys_set m a a b).2 (Or.inl rfl)
      have := set_assignAll_of_mem rest (m.set a b) a v hmem hnd.1
      simp only [assignAll, set, List.foldl_cons, if_true] at this ⊢
      rw [this, set_set]
    · have := ih (m.set a b) hnd.2
      simp only [assignAll, set, h, if_false, List.foldl_cons] at this ⊢
      exact this

theorem assignAll_assignAll_nil (es : List (String × β)) (m : JsObject β) :
    m.assignAll (assignAll [] es) = m.assignAll es := by
  induction es using List.reverseRecOn with
  | nil => simp [assignAll]
  | append_singleton es e ih =>
    have hnd : (assignAll ([] : JsObject β) es).keys.Nodup :=
      nodup_keys_assignAll es [] (by simp [keys])
    rw [assignAll_append, assignAll_append]
    have h1 : assignAll (assignAll ([] : JsObject β) es) [e]
        = (assignAll ([] : JsObject β) es).set e.1 e.2 := by simp [assignAll]
    have h2 : assignAll (m.assignAll es) [e] = (m.assignAll es).set e.1 e.2 := by
      simp [assignAll]
    rw [h1, h2, assignAll_set _ _ _ _ hnd, ih]

theorem get_assignAll (es : List (String × β)) (o : JsObject β) (k : String) :
    (o.assignAll es).get k =
      match (es.filter (fun e => e.1 = k)).getLast? with
      | some e => some e.2
      | none => o.get k := by
  induction es using List.reverseRecOn with
  | nil => simp [assignAll]
  | append_singleton es e ih =>
    rw [assignAll_append]
    have h2 : assignAll (o.assignAll es) [e] = (o.assignAll es).set e.1 e.2 := by
      simp [assignAll]
    rw [h2, get_set, List.filter_append]
    by_cases h : e.1 = k
    · simp [h]
    · simp [h, ih]

end JsObject

/-! ## Lemmas on `updatePositions` -/

theorem posMapOf_eq (positions : List Position) :
    posMapOf positions = JsObject.assignAll [] (assignments positions) := by
  simp [posMapOf, JsObject.assignAll, assignments, List.foldl_map]

theorem updatePositions_eq (prev : JsObject LivePosition) (positions : List Position) :
    updatePositions prev positions = JsObject.assignAll prev (assignments positions) := by
  rw [updatePositions, JsObject.spread, posMapOf_eq, JsObject.assignAll_assignAll_nil]

theorem deliver_eq (batches : List (List Position)) (prev : JsObject LivePosition) :
    deliver prev batches = JsObject.assignAll prev (assignments batches.flatten) := by
  induction batches generalizing prev with
  | nil => simp [deliver, assignments, JsObject.assignAll]
  | cons b bs ih =>
    have : deliver prev (b :: bs) = deliver (updatePositions prev b) bs := by
      simp [deliver]
    rw [this, ih, updatePositions_eq, ← JsObject.assignAll_append]
    simp [assignments]

theorem getLast?_filter_assignments (positions : List Position) (deviceId : String) :
    ((assignments positions).filter (fun e => e.1 = deviceId)).getLast?
      = (lastFor deviceId positions).map (fun pos => (pos.deviceId, pos.toLive)) := by
  simp only [assignments, lastFor, List.filter_map, List.getLast?_map]
  rfl

/-! ## Lemmas on enumeration and markers -/

namespace JsObject

variable {β : Type}

theorem entries_perm (o : JsObject β) : (entries o).Perm o := by
  unfold entries
  exact ((List.perm_insertionSort indexLe _).append_right _).trans
    (List.filter_append_perm isIndexKey o)

theorem mem_entries (o : JsObject β) (e : String × β) : e ∈ entries o ↔ e ∈ o :=
  (entries_perm o).mem_iff

theorem nodup_keys_entries (o : JsObject β) (h : o.keys.Nodup) : (keys (entries o)).Nodup :=
  (((entries_perm o).map Prod.fst).nodup_iff).2 h

theorem mem_of_get_eq_some (o : JsObject β) (k : String) (v : β) (h : o.get k = some v) :
    (k, v) ∈ o := by
  induction o with
  | nil => simp [get] at h
  | cons e rest ih =>
    obtain ⟨a, b⟩ := e
    by_cases hk : a = k
    · subst hk
      simp only [get, if_true, Option.some.injEq] at h
      simp [h]
    · simp only [get, hk, if_false] at h
      exact List.mem_cons_of_mem _ (ih h)

theorem get_eq_none_of_not_mem (o : JsObject β) (k : String) (h : k ∉ o.keys) :
    o.get k = none := by
  induction o with
  | nil => rfl
  | cons e rest ih =>
    obtain ⟨a, b⟩ := e
    simp only [keys, List.map_cons, List.mem_cons, not_or] at h
    have hk : ¬ a = k := fun h' => h.1 h'.symm
    simp only [get, hk, if_false]
    exact ih h.2

theorem get_ne_none_of_mem (o : JsObject β) (k : String) (v : β) (h : (k, v) ∈ o) :
    o.get k ≠ none := by
  induction o with
  | nil => simp at h
  | cons e rest ih =>
    obtain ⟨a, b⟩ := e
    by_cases hk : a = k
    · simp [get, hk]
    · simp only [get, hk, if_false]
      rcases List.mem_cons.1 h with h' | h'
      · exact absurd (congrArg Prod.fst h').symm hk
      · exact ih h'

theorem get_eq_some_of_mem (o : JsObject β) (k : String) (v : β) (hnd : o.keys.Nodup)
    (h : (k, v) ∈ o) : o.get k = some v := by
  induction o with
  | nil => simp at h
  | cons e rest ih =>
    obtain ⟨a, b⟩ := e
    simp only [keys, List.map_cons, List.nodup_cons] at hnd
    rcases List.mem_cons.1 h with h' | h'
    · cases h'
      simp [get]
    · have hk : ¬ a = k := by
        rintro rfl
        exact hnd.1 (List.mem_map.2 ⟨(a, v), h', rfl⟩)
      simp only [get, hk, if_false]
      exact ih hnd.2 h'

theorem get_entries (o : JsObject β) (k : String) (hnd : o.keys.Nodup) :
    get (entries o) k = o.get k := by
  cases h : o.get k with
  | none =>
    cases h' : get (entries o) k with
    | none => rfl
    | some v =>
      have := (mem_entries o (k, v)).1 (mem_of_get_eq_some _ k v h')
      exact absurd h (get_ne_none_of_mem o k v this)
  | some v =>
    exact get_eq_some_of_mem _ k v (nodup_keys_entries o hnd)
      ((mem_entries o (k, v)).2 (mem_of_get_eq_some o k v h))

end JsObject

theorem getMemberForDevice_some {crewMembers : List Member} {deviceId : String} {m : Member}
    (h : getMemberForDevice crewMembers deviceId = some m) :
    m ∈ crewMembers ∧ m.traccar_device_id = deviceId := by
  unfold getMemberForDevice at h
  refine ⟨List.mem_of_find?_eq_some h, ?_⟩
  have := List.find?_some h
  simpa using this

theorem getMemberForDevice_isSome {crewMembers : List Member} {m : Member}
    (h : m ∈ crewMembers) :
    ∃ m', getMemberForDevice crewMembers m.traccar_device_id = some m' := by
  cases h' : getMemberForDevice crewMembers m.traccar_device_id with
  | some m' => exact ⟨m', rfl⟩
  | none =>
    unfold getMemberForDevice at h'
    rw [List.find?_eq_none] at h'
    exact absurd (by simp) (h' m h)

theorem renderMarker_some {crewMembers : List Member} {entry : String × LivePosition}
    {mk : Marker} (h : renderMarker crewMembers entry = some mk) :
    getMemberForDevice crewMembers entry.1 = some mk.member ∧ mk.deviceId = entry.1 ∧
      mk.latitude = entry.2.latitude ∧ mk.longitude = entry.2.longitude := by
  unfold renderMarker at h
  cases hm : getMemberForDevice crewMembers entry.1 with
  | none => simp [hm] at h
  | some member =>
    simp only [hm, Option.some.injEq] at h
    subst h
    exact ⟨rfl, rfl, rfl, rfl⟩

theorem mem_memberMarkers {crewMembers : List Member} {memberPositions : JsObject LivePosition}
    {mk : Marker} :
    mk ∈ memberMarkers crewMembers memberPositions ↔
      ∃ e ∈ memberPositions, renderMarker crewMembers e = some mk := by
  unfold memberMarkers
  rw [List.mem_filterMap]
  constructor
  · rintro ⟨e, he, h⟩
    exact ⟨e, (JsObject.mem_entries _ e).1 he, h⟩
  · rintro ⟨e, he, h⟩
    exact ⟨e, (JsObject.mem_entries _ e).2 he, h⟩

theorem get_updatePositions_of_lastFor (prev : JsObject LivePosition) (batch : List Position)
    (pos : Position) (h : lastFor pos.deviceId batch = some pos) :
    (updatePositions prev batch).get pos.deviceId = some pos.toLive := by
  rw [updatePositions_eq, JsObject.get_assignAll, getLast?_filter_assignments, h]
  rfl

theorem renderMarker_deviceId {crewMembers : List Member} {entry : String × LivePosition}
    {mk : Marker} (h : renderMarker crewMembers entry = some mk) :
    mk.deviceId = entry.1 := (renderMarker_some h).2.1

theorem filter_deviceId_filterMap (crewMembers : List Member) (l : JsObject LivePosition)
    (deviceId : String) (hnd : l.keys.Nodup) :
    (l.filterMap (renderMarker crewMembers)).filter (fun mk => mk.deviceId = deviceId) =
      match l.get deviceId with
      | some v => (renderMarker crewMembers (deviceId, v)).toList
      | none => [] := by
  induction l with
  | nil => simp [JsObject.get]
  | cons e rest ih =>
    obtain ⟨a, b⟩ := e
    simp only [JsObject.keys, List.map_cons, List.nodup_cons] at hnd
    have ih' := ih hnd.2
    by_cases hk : a = deviceId
    · subst hk
      have hnone : JsObject.get rest a = none :=
        JsObject.get_eq_none_of_not_mem rest a hnd.1
      rw [hnone] at ih'
      simp only [JsObject.get, if_true]
      cases hr : renderMarker crewMembers (a, b) with
      | none => simp [List.filterMap_cons, hr, ih']
      | some mk =>
        have hd : mk.deviceId = a := renderMarker_deviceId hr
        simp [List.filterMap_cons, hr, ih', List.filter_cons, hd]
    · simp only [JsObject.get, hk, if_false]
      cases hr : renderMarker crewMembers (a, b) with
      | none => simp [List.filterMap_cons, hr, ih']
      | some mk =>
        have hd : mk.deviceId = a := renderMarker_deviceId hr
        have hne : ¬ mk.deviceId = deviceId := by rw [hd]; exact hk
        simp [List.filterMap_cons, hr, ih', List.filter_cons, hne]

theorem filter_deviceId_memberMarkers (crewMembers : List Member)
    (memberPositions : JsObject LivePosition) (deviceId : String)
    (hnd : memberPositions.keys.Nodup) :
    (memberMarkers crewMembers memberPositions).filter (fun mk => mk.deviceId = deviceId) =
      match memberPositions.get deviceId with
      | some v => (renderMarker crewMembers (deviceId, v)).toList
      | none => [] := by
  unfold memberMarkers
  rw [filter_deviceId_filterMap crewMembers _ deviceId
    (JsObject.nodup_keys_entries memberPositions hnd), JsObject.get_entries _ _ hnd]

theorem deviceId_of_mem_memberMarkers {crewMembers : List Member}
    {memberPositions : JsObject LivePosition} {mk : Marker}
    (h : mk ∈ memberMarkers crewMembers memberPositions) :
    mk.member ∈ crewMembers ∧ mk.member.traccar_device_id = mk.deviceId ∧
      memberPositions.get mk.deviceId ≠ none := by
  obtain ⟨e, he, hr⟩ := mem_memberMarkers.1 h
  obtain ⟨hfind, hdev, _, _⟩ := renderMarker_some hr
  obtain ⟨hmem, hid⟩ := getMemberForDevice_some hfind
  refine ⟨hmem, by rw [hid, hdev], ?_⟩
  rw [hdev]
  exact JsObject.get_ne_none_of_mem memberPositions e.1 e.2 he

theorem nodup_keys_deliver (batches : List (List Position)) :
    (deliver [] batches).keys.Nodup := by
  rw [deliver_eq]
  exact JsObject.nodup_keys_assignAll _ [] (by simp [JsObject.keys])

/-! ## Lemmas on trails -/

theorem get_groupStep (o : JsObject (List TrailPoint)) (point : TrailPoint) (k : String) :
    (groupStep o point).get k =
      if point.member_id = k then some ((o.get k).getD [] ++ [point]) else o.get k := by
  unfold groupStep pushAt
  cases h : o.get point.member_id with
  | none =>
    simp only [Option.isNone_none, if_true, JsObject.get_set]
    by_cases hk : point.member_id = k
    · subst hk; simp [JsObject.get_set, h]
    · simp [JsObject.get_set, hk]
  | some arr =>
    by_cases hk : point.member_id = k
    · subst hk; simp [JsObject.get_set, h]
    · simp [JsObject.get_set, hk, h]

theorem groupByMember_append (rows : List TrailPoint) (point : TrailPoint) :
    groupByMember (rows ++ [point]) = groupStep (groupByMember rows) point := by
  simp [groupByMember, List.foldl_append]

theorem get_groupByMember (rows : List TrailPoint) (k : String) :
    (groupByMember rows).get k =
      if k ∈ rows.map (fun r => r.member_id) then
        some (rows.filter (fun r => r.member_id = k))
      else none := by
  induction rows using List.reverseRecOn with
  | nil => simp [groupByMember, JsObject.get]
  | append_singleton rows point ih =>
    rw [groupByMember_append, get_groupStep, ih]
    by_cases hk : point.member_id = k
    · by_cases hmem : k ∈ rows.map (fun r => r.member_id)
      · simp [hk, hmem, List.filter_append]
      · have hnil : rows.filter (fun r => decide (r.member_id = k)) = [] := by
          rw [List.filter_eq_nil_iff]
          intro r hr
          simp only [decide_eq_true_eq]
          intro h
          exact hmem (List.mem_map.2 ⟨r, hr, h⟩)
        simp [hk, hmem, List.filter_append, hnil]
    · have hk' : ¬ k = point.member_id := fun h => hk h.symm
      by_cases hmem : k ∈ rows.map (fun r => r.member_id)
      · have hmem' : ∃ a ∈ rows, a.member_id = k := by simpa using hmem
        simp [hk, hk', hmem', List.filter_append]
      · have hmem' : ¬ ∃ a ∈ rows, a.member_id = k := by simpa using hmem
        simp [hk, hk', hmem', List.filter_append]

theorem allPoints_set_nil (o : JsObject (List TrailPoint)) (k : String)
    (h : o.get k = none) : allPoints (o.set k []) = allPoints o := by
  induction o with
  | nil => simp [JsObject.set, allPoints]
  | cons e rest ih =>
    obtain ⟨a, b⟩ := e
    by_cases hk : a = k
    · simp [JsObject.get, hk] at h
    · simp only [JsObject.get, hk, if_false] at h
      have := ih h
      simp only [allPoints] at this
      simp [JsObject.set, hk, allPoints, this]

theorem allPoints_pushAt (o : JsObject (List TrailPoint)) (k : String) (x : TrailPoint)
    (arr : List TrailPoint) (h : o.get k = some arr) :
    (allPoints (pushAt o k x)).Perm (x :: allPoints o) := by
  unfold pushAt
  rw [h]
  simp only
  induction o with
  | nil => simp [JsObject.get] at h
  | cons e rest ih =>
    obtain ⟨a, b⟩ := e
    by_cases hk : a = k
    · simp only [JsObject.get, hk, if_true, Option.some.injEq] at h
      subst h
      simp only [JsObject.set, hk, if_true, allPoints, List.map_cons, List.flatten_cons,
        List.append_assoc, List.singleton_append]
      exact List.perm_middle
    · simp only [JsObject.get, hk, if_false] at h
      have := ih h
      simp only [allPoints] at this
      simp only [JsObject.set, hk, if_false, allPoints, List.map_cons, List.flatten_cons]
      exact (List.Perm.append_left b this).trans List.perm_middle

theorem allPoints_groupStep (o : JsObject (List TrailPoint)) (point : TrailPoint) :
    (allPoints (groupStep o point)).Perm (point :: allPoints o) := by
  unfold groupStep
  cases h : o.get point.member_id with
  | none =>
    simp only [Option.isNone_none, if_true]
    have h1 : (o.set point.member_id []).get point.member_id = some [] := by
      simp [JsObject.get_set]
    have := allPoints_pushAt _ point.member_id point [] h1
    rwa [allPoints_set_nil o _ h] at this
  | some arr =>
    simp only [Option.isNone_some]
    exact allPoints_pushAt o point.member_id point arr h

theorem allPoints_groupByMember (rows : List TrailPoint) :
    (allPoints (groupByMember rows)).Perm rows := by
  induction rows using List.reverseRecOn with
  | nil => simp [groupByMember, allPoints]
  | append_singleton rows point ih =>
    rw [groupByMember_append]
    exact (allPoints_groupStep _ point).trans
      ((List.Perm.cons point ih).trans (List.perm_append_singleton point rows).symm)

/-! ## Lemmas on dates -/

theorem digit_ne_T (n : Nat) : digit n ≠ 'T' := by
  have h : ∀ k : Fin 10, Nat.digitChar k ≠ 'T' := by decide
  exact h ⟨n % 10, Nat.mod_lt _ (by decide)⟩

theorem digit_isDigit (n : Nat) : (digit n).isDigit = true := by
  have h : ∀ k : Fin 10, (Nat.digitChar k).isDigit = true := by decide
  exact h ⟨n % 10, Nat.mod_lt _ (by decide)⟩

theorem digit_inj {a b : Nat} (h : digit a = digit b) : a % 10 = b % 10 := by
  have key : ∀ j k : Fin 10, Nat.digitChar j = Nat.digitChar k → j = k := by decide
  have := key ⟨a % 10, Nat.mod_lt _ (by decide)⟩ ⟨b % 10, Nat.mod_lt _ (by decide)⟩ h
  exact congrArg Fin.val this

theorem dayFromYear_succ (y : Int) : dayFromYear (y + 1) = dayFromYear y + daysInYear y := by
  unfold dayFromYear daysInYear
  split_ifs <;> omega

theorem yearFromDay_estimate_lower (d y : Int) (h : y = 1970 + (400 * d) / 146097) :
    dayFromYear (y - 1) ≤ d := by
  unfold dayFromYear; omega

theorem yearFromDay_estimate_upper (d y : Int) (h : y = 1970 + (400 * d) / 146097) :
    d < dayFromYear (y + 2) := by
  unfold dayFromYear; omega

theorem yearFromDay_spec (d : Int) :
    dayFromYear (yearFromDay d) ≤ d ∧ d < dayFromYear (yearFromDay d + 1) := by
  have hl := yearFromDay_estimate_lower d _ rfl
  have hu := yearFromDay_estimate_upper d _ rfl
  unfold yearFromDay
  simp only
  split_ifs with h1 h2
  · refine ⟨hl, ?_⟩
    rw [sub_add_cancel]; exact h1
  · refine ⟨h2, ?_⟩
    rw [add_assoc]; exact hu
  · exact ⟨not_lt.mp h1, not_le.mp h2⟩

theorem dayFromYear_strictMono : StrictMono dayFromYear := by
  apply strictMono_int_of_lt_succ
  intro y
  unfold dayFromYear; omega

theorem yearFromDay_largest (d y : Int) (h : dayFromYear y ≤ d) : y ≤ yearFromDay d := by
  by_contra hlt
  have h1 : yearFromDay d + 1 ≤ y := by omega
  have := dayFromYear_strictMono.monotone h1
  have := (yearFromDay_spec d).2
  omega

theorem dayWithinYear_range (d : Int) :
    0 ≤ dayWithinYear d ∧ dayWithinYear d < 365 + leapOfYear (yearFromDay d) := by
  have hs := yearFromDay_spec d
  rw [dayFromYear_succ] at hs
  unfold dayWithinYear leapOfYear
  unfold daysInYear at *
  split_ifs at * <;> omega

theorem day_eq (d : Int) : d = dayFromYear (yearFromDay d) + dayWithinYear d := by
  unfold dayWithinYear; omega

theorem dateOfDayWithinYear_eq (w leap : Int) :
    dateOfDayWithinYear w leap = w + 1 - monthStart (monthOfDayWithinYear w leap) leap := by
  unfold dateOfDayWithinYear monthStart
  generalize monthOfDayWithinYear w leap = m
  split <;> omega

theorem monthOfDayWithinYear_cases (w leap m : Int) (hm : monthOfDayWithinYear w leap = m) :
    (m = 0 ∧ w < 31) ∨ (m = 1 ∧ 31 ≤ w ∧ w < 59 + leap) ∨
    (m = 2 ∧ 59 + leap ≤ w ∧ w < 90 + leap) ∨ (m = 3 ∧ 90 + leap ≤ w ∧ w < 120 + leap) ∨
    (m = 4 ∧ 120 + leap ≤ w ∧ w < 151 + leap) ∨ (m = 5 ∧ 151 + leap ≤ w ∧ w < 181 + leap) ∨
    (m = 6 ∧ 181 + leap ≤ w ∧ w < 212 + leap) ∨ (m = 7 ∧ 212 + leap ≤ w ∧ w < 243 + leap) ∨
    (m = 8 ∧ 243 + leap ≤ w ∧ w < 273 + leap) ∨ (m = 9 ∧ 273 + leap ≤ w ∧ w < 304 + leap) ∨
    (m = 10 ∧ 304 + leap ≤ w ∧ w < 334 + leap) ∨ (m = 11 ∧ 334 + leap ≤ w) := by
  unfold monthOfDayWithinYear at hm
  by_cases h0 : w < 31
  · rw [if_pos h0] at hm
    exact Or.inl ⟨by omega, by omega⟩
  rw [if_neg h0] at hm
  by_cases h1 : w < 59 + leap
  · rw [if_pos h1] at hm
    exact Or.inr (Or.inl ⟨by omega, by omega, by omega⟩)
  rw [if_neg h1] at hm
  by_cases h2 : w < 90 + leap
  · rw [if_pos h2] at hm
    exact Or.inr (Or.inr (Or.inl ⟨by omega, by omega, by omega⟩))
  rw [if_neg h2] at hm
  by_cases h3 : w < 120 + leap
  · rw [if_pos h3] at hm
    exact Or.inr (Or.inr (Or.inr (Or.inl ⟨by omega, by omega, by omega⟩)))
  rw [if_neg h3] at hm
  by_cases h4 : w < 151 + leap
  · rw [if_pos h4] at hm
    exact Or.inr (Or.inr (Or.inr (Or.inr (Or.inl ⟨by omega, by omega, by omega⟩))))
  rw [if_neg h4] at hm
  by_cases h5 : w < 181 + leap
  · rw [if_pos h5] at hm
    exact Or.inr (Or.inr (Or.inr (Or.inr (Or.inr (Or.inl ⟨by omega, by omega, by omega⟩)))))
  rw [if_neg h5] at hm
  by_cases h6 : w < 212 + leap
  · rw [if_pos h6] at hm
    exact Or.inr (Or.inr (Or.inr (Or.inr (Or.inr (Or.inr (Or.inl ⟨by omega, by omega, by omega⟩))))))
  rw [if_neg h6] at hm
  by_cases h7 : w < 243 + leap
  · rw [if_pos h7] at hm
    exact Or.inr (Or.inr (Or.inr (Or.inr (Or.inr (Or.inr (Or.inr (Or.inl ⟨by omega, by omega, by omega⟩)))))))
  rw [if_neg h7] at hm
  by_cases h8 : w < 273 + leap
  · rw [if_pos h8] at hm
    exact Or.inr (Or.inr (Or.inr (Or.inr (Or.inr (Or.inr (Or.inr (Or.inr (Or.inl ⟨by omega, by omega, by omega⟩))))))))
  rw [if_neg h8] at hm
  by_cases h9 : w < 304 + leap
  · rw [if_pos h9] at hm
    exact Or.inr (Or.inr (Or.inr (Or.inr (Or.inr (Or.inr (Or.inr (Or.inr (Or.inr (Or.inl ⟨by omega, by omega, by omega⟩)))))))))
  rw [if_neg h9] at hm
  by_cases h10 : w < 334 + leap
  · rw [if_pos h10] at hm
    exact Or.inr (Or.inr (Or.inr (Or.inr (Or.inr (Or.inr (Or.inr (Or.inr (Or.inr (Or.inr (Or.inl ⟨by omega, by omega, by omega⟩))))))))))
  rw [if_neg h10] at hm
  exact Or.inr (Or.inr (Or.inr (Or.inr (Or.inr (Or.inr (Or.inr (Or.inr (Or.inr (Or.inr (Or.inr (⟨by omega, by omega⟩)))))))))))

theorem monthOfDayWithinYear_range (w leap : Int) :
    0 ≤ monthOfDayWithinYear w leap ∧ monthOfDayWithinYear w leap ≤ 11 := by
  have := monthOfDayWithinYear_cases w leap _ rfl
  omega

theorem dateOfDayWithinYear_range (w leap : Int) (h0 : 0 ≤ w) (h1 : w < 365 + leap)
    (hl0 : 0 ≤ leap) (hl1 : leap ≤ 1) :
    1 ≤ dateOfDayWithinYear w leap ∧ dateOfDayWithinYear w leap ≤ 31 := by
  rw [dateOfDayWithinYear_eq]
  have hc := monthOfDayWithinYear_cases w leap _ rfl
  generalize monthOfDayWithinYear w leap = m at hc
  rcases hc with h | h | h | h | h | h | h | h | h | h | h | h <;>
    (obtain ⟨rfl, _⟩ := h; simp only [monthStart]; omega)

theorem dayWithinYear_determined (w₁ w₂ leap : Int)
    (hm : monthOfDayWithinYear w₁ leap = monthOfDayWithinYear w₂ leap)
    (hd : dateOfDayWithinYear w₁ leap = dateOfDayWithinYear w₂ leap) : w₁ = w₂ := by
  rw [dateOfDayWithinYear_eq, dateOfDayWithinYear_eq, hm] at hd
  omega

theorem pad2_inj {a b : Nat} (ha : a < 100) (hb : b < 100) (h : pad2 a = pad2 b) : a = b := by
  simp only [pad2, List.cons.injEq, and_true] at h
  have h1 := digit_inj h.1
  have h2 := digit_inj h.2
  omega

theorem pad4_inj {a b : Nat} (ha : a < 10000) (hb : b < 10000) (h : pad4 a = pad4 b) :
    a = b := by
  simp only [pad4, List.cons.injEq, and_true] at h
  have h1 := digit_inj h.1
  have h2 := digit_inj h.2.1
  have h3 := digit_inj h.2.2.1
  have h4 := digit_inj h.2.2.2
  omega

theorem pad6_inj {a b : Nat} (ha : a < 1000000) (hb : b < 1000000) (h : pad6 a = pad6 b) :
    a = b := by
  simp only [pad6, List.cons.injEq, and_true] at h
  have h1 := digit_inj h.1
  have h2 := digit_inj h.2.1
  have h3 := digit_inj h.2.2.1
  have h4 := digit_inj h.2.2.2.1
  have h5 := digit_inj h.2.2.2.2.1
  have h6 := digit_inj h.2.2.2.2.2
  omega

theorem isoYear_length (y : Int) :
    (isoYear y).length = if 0 ≤ y ∧ y ≤ 9999 then 4 else 7 := by
  unfold isoYear
  split_ifs <;> simp [pad4, pad6]

theorem isoYear_inj {y₁ y₂ : Int} (h₁ : y₁.natAbs < 1000000) (h₂ : y₂.natAbs < 1000000)
    (h : isoYear y₁ = isoYear y₂) : y₁ = y₂ := by
  have hlen := congrArg List.length h
  rw [isoYear_length, isoYear_length] at hlen
  unfold isoYear at h
  by_cases c₁ : 0 ≤ y₁ ∧ y₁ ≤ 9999
  · by_cases c₂ : 0 ≤ y₂ ∧ y₂ ≤ 9999
    · rw [if_pos c₁, if_pos c₂] at h
      have := pad4_inj (by omega) (by omega) h
      omega
    · rw [if_pos c₁, if_neg c₂] at hlen
      omega
  · by_cases c₂ : 0 ≤ y₂ ∧ y₂ ≤ 9999
    · rw [if_neg c₁, if_pos c₂] at hlen
      omega
    · rw [if_neg c₁, if_neg c₂] at h
      simp only [List.cons.injEq] at h
      have habs := pad6_inj h₁ h₂ h.2
      have hsign := h.1
      by_cases n₁ : y₁ < 0
      · by_cases n₂ : y₂ < 0
        · omega
        · rw [if_pos n₁, if_neg n₂] at hsign
          exact absurd hsign (by decide)
      · by_cases n₂ : y₂ < 0
        · rw [if_neg n₁, if_pos n₂] at hsign
          exact absurd hsign (by decide)
        · omega

theorem isoParts_inj {y₁ y₂ : Int} {m₁ m₂ e₁ e₂ : Nat}
    (hy₁ : y₁.natAbs < 1000000) (hy₂ : y₂.natAbs < 1000000)
    (hm₁ : m₁ < 100) (hm₂ : m₂ < 100) (he₁ : e₁ < 100) (he₂ : e₂ < 100)
    (h : isoYear y₁ ++ '-' :: pad2 m₁ ++ '-' :: pad2 e₁
      = isoYear y₂ ++ '-' :: pad2 m₂ ++ '-' :: pad2 e₂) :
    y₁ = y₂ ∧ m₁ = m₂ ∧ e₁ = e₂ := by
  have hlen := congrArg List.length h
  simp only [List.length_append, List.length_cons, pad2, List.length_nil] at hlen
  have hlen' : (isoYear y₁).length = (isoYear y₂).length := by omega
  have h' : isoYear y₁ ++ ('-' :: pad2 m₁ ++ '-' :: pad2 e₁)
      = isoYear y₂ ++ ('-' :: pad2 m₂ ++ '-' :: pad2 e₂) := by
    simpa [List.append_assoc] using h
  obtain ⟨hy, hrest⟩ := List.append_inj h' hlen'
  have hrest' : pad2 m₁ ++ '-' :: pad2 e₁ = pad2 m₂ ++ '-' :: pad2 e₂ := by
    simpa using hrest
  obtain ⟨hm, he⟩ := List.append_inj hrest' (by simp [pad2])
  refine ⟨isoYear_inj hy₁ hy₂ hy, pad2_inj hm₁ hm₂ hm, pad2_inj he₁ he₂ ?_⟩
  simpa using he

theorem leapOfYear_range (y : Int) : 0 ≤ leapOfYear y ∧ leapOfYear y ≤ 1 := by
  unfold leapOfYear
  split_ifs <;> omega

theorem day_range (d : JsDate) : -100000000 ≤ day d.time ∧ day d.time ≤ 100000000 := by
  have := d.valid
  unfold day msPerDay
  omega

theorem yearFromTime_range (d : JsDate) : (yearFromTime d.time).natAbs < 1000000 := by
  have hd := day_range d
  have hs := yearFromDay_spec (day d.time)
  unfold yearFromTime
  generalize yearFromDay (day d.time) = y at hs
  unfold dayFromYear at hs
  omega

theorem monthFromTime_range (t : Int) : 0 ≤ monthFromTime t ∧ monthFromTime t ≤ 11 :=
  monthOfDayWithinYear_range _ _

theorem dateFromTime_range (t : Int) : 1 ≤ dateFromTime t ∧ dateFromTime t ≤ 31 := by
  have hw := dayWithinYear_range (day t)
  have hl := leapOfYear_range (yearFromTime t)
  exact dateOfDayWithinYear_range _ _ hw.1 hw.2 hl.1 hl.2

theorem isoDate_of_day_eq {t₁ t₂ : Int} (h : day t₁ = day t₂) : isoDate t₁ = isoDate t₂ := by
  simp only [isoDate, yearFromTime, monthFromTime, dateFromTime, h]

theorem day_eq_of_isoDate_eq (d₁ d₂ : JsDate) (h : isoDate d₁.time = isoDate d₂.time) :
    day d₁.time = day d₂.time := by
  have hm₁ := monthFromTime_range d₁.time
  have hm₂ := monthFromTime_range d₂.time
  have he₁ := dateFromTime_range d₁.time
  have he₂ := dateFromTime_range d₂.time
  obtain ⟨hy, hm, he⟩ := isoParts_inj (yearFromTime_range d₁) (yearFromTime_range d₂)
    (by omega) (by omega) (by omega) (by omega) h
  have hm' : monthFromTime d₁.time = monthFromTime d₂.time := by omega
  have he' : dateFromTime d₁.time = dateFromTime d₂.time := by omega
  have hy' : yearFromDay (day d₁.time) = yearFromDay (day d₂.time) := hy
  unfold monthFromTime at hm'
  unfold dateFromTime at he'
  rw [hy] at hm' he'
  have hw := dayWithinYear_determined _ _ _ hm' he'
  rw [day_eq (day d₁.time), day_eq (day d₂.time), hy', hw]

theorem isoDate_no_T (t : Int) : ∀ c ∈ isoDate t, (c != 'T') = true := by
  intro c hc
  have hpad2 : ∀ n, ∀ c ∈ pad2 n, c ≠ 'T' := by
    intro n c hc
    simp only [pad2, List.mem_cons, List.mem_singleton, List.not_mem_nil, or_false] at hc
    rcases hc with rfl | rfl <;> exact digit_ne_T _
  have hyear : ∀ c ∈ isoYear (yearFromTime t), c ≠ 'T' := by
    intro c hc
    unfold isoYear at hc
    split_ifs at hc
    · simp only [pad4, List.mem_cons, List.mem_singleton, List.not_mem_nil, or_false] at hc
      rcases hc with rfl | rfl | rfl | rfl <;> exact digit_ne_T _
    · simp only [pad6, List.mem_cons, List.mem_singleton, List.not_mem_nil, or_false] at hc
      rcases hc with rfl | rfl | rfl | rfl | rfl | rfl | rfl
      · decide
      all_goals exact digit_ne_T _
    · simp only [pad6, List.mem_cons, List.mem_singleton, List.not_mem_nil, or_false] at hc
      rcases hc with rfl | rfl | rfl | rfl | rfl | rfl | rfl
      · decide
      all_goals exact digit_ne_T _
  have hne : c ≠ 'T' := by
    simp only [isoDate, List.mem_append, List.mem_cons] at hc
    rcases hc with (hc | hc | hc) | hc | hc
    · exact hyear c hc
    · rw [hc]; decide
    · exact hpad2 _ c hc
    · rw [hc]; decide
    · exact hpad2 _ c hc
  simpa using hne

theorem formatDayMarker_eq (d : JsDate) : formatDayMarker d = String.mk (isoDate d.time) := by
  unfold formatDayMarker splitHead toISOString
  simp only
  rw [List.takeWhile_append_of_pos (isoDate_no_T d.time)]
  simp

theorem formatDayMarker_eq_iff (d₁ d₂ : JsDate) :
    formatDayMarker d₁ = formatDayMarker d₂ ↔ day d₁.time = day d₂.time := by
  rw [formatDayMarker_eq, formatDayMarker_eq]
  constructor
  · intro h
    exact day_eq_of_isoDate_eq d₁ d₂ (congrArg String.data h)
  · intro h
    rw [isoDate_of_day_eq h]

theorem utcCalendarDate_eq (d : JsDate) :
    utcCalendarDate d = (yearFromTime d.time, monthFromTime d.time + 1, dateFromTime d.time) := by
  simp [utcCalendarDate, calendarDate, localTime]

theorem utcCalendarDate_eq_iff (d₁ d₂ : JsDate) :
    utcCalendarDate d₁ = utcCalendarDate d₂ ↔ day d₁.time = day d₂.time := by
  rw [utcCalendarDate_eq, utcCalendarDate_eq]
  constructor
  · intro h
    simp only [Prod.mk.injEq] at h
    obtain ⟨hy, hm, he⟩ := h
    have hm' : monthFromTime d₁.time = monthFromTime d₂.time := by omega
    have hy' : yearFromDay (day d₁.time) = yearFromDay (day d₂.time) := hy
    unfold monthFromTime at hm'
    unfold dateFromTime at he
    rw [hy] at hm' he
    have hw := dayWithinYear_determined _ _ _ hm' he
    rw [day_eq (day d₁.time), day_eq (day d₂.time), hy', hw]
  · intro h
    simp only [yearFromTime, monthFromTime, dateFromTime, h]

theorem isDayMarkerForm_of_year (d : JsDate) (h0 : 0 ≤ yearFromTime d.time)
    (h1 : yearFromTime d.time ≤ 9999) : isDayMarkerForm (formatDayMarker d) = true := by
  rw [formatDayMarker_eq]
  simp [isDayMarkerForm, isoDate, isoYear, h0, h1, pad4, pad2, digit_isDigit]

/-- C1 (as stated, refuted): `d1` at (1, 1) with the later fix time, then `d1` at (2, 2)
with an earlier fix time: the live map holds (2, 2), the older position, for `d1`. -/
theorem C1_stale_position_replaces_newer :
    "2024-05-01T10:00:00.000+00:00" < "2024-05-01T10:05:00.000+00:00" ∧
    (deliver []
        [[⟨"d1", 1, 1, some "2024-05-01T10:05:00.000+00:00", none⟩],
         [⟨"d1", 2, 2, some "2024-05-01T10:00:00.000+00:00", none⟩]]).get "d1"
      = some ⟨2, 2, some "2024-05-01T10:00:00.000+00:00"⟩ ∧
    (deliver []
        [[⟨"d1", 1, 1, some "2024-05-01T10:05:00.000+00:00", none⟩],
         [⟨"d1", 2, 2, some "2024-05-01T10:00:00.000+00:00", none⟩]]).get "d1"
      ≠ some ⟨1, 1, some "2024-05-01T10:05:00.000+00:00"⟩ := by
  refine ⟨String.lt_iff_toList_lt.mpr (by decide), by decide, by decide⟩

/-- C1 (amended): after any sequence of feed batches, the live-position entry of a device
is the position delivered last for it, in arrival order through all the batches, whatever
the timestamps; a device no batch names keeps its previous entry. -/
theorem C1_live_entry_is_last_delivered (prev : JsObject LivePosition)
    (batches : List (List Position)) (deviceId : String) :
    (deliver prev batches).get deviceId =
      match lastFor deviceId batches.flatten with
      | some pos => some pos.toLive
      | none => prev.get deviceId := by
  rw [deliver_eq, JsObject.get_assignAll, getLast?_filter_assignments]
  cases lastFor deviceId batches.flatten <;> rfl

/-- C2: applying `updatePositions` to `b1` and then to `b2` gives the same live-position
map as applying it once to `b1 ++ b2`; hence two chunkings of one sequence of positions
give the same final map. -/
theorem C2_chunking_irrelevant (prev : JsObject LivePosition) :
    (∀ b1 b2 : List Position,
      updatePositions (updatePositions prev b1) b2 = updatePositions prev (b1 ++ b2)) ∧
    (∀ bs bs' : List (List Position), bs.flatten = bs'.flatten →
      deliver prev bs = deliver prev bs') := by
  constructor
  · intro b1 b2
    simp only [updatePositions_eq, assignments, List.map_append, JsObject.assignAll_append]
  · intro bs bs' h
    rw [deliver_eq, deliver_eq, h]

/-- C2 at a concrete input: the batches `[p], [q]` and the single batch `[p, q]`. -/
theorem C2_chunking_irrelevant_witness :
    deliver [] [[⟨"d1", 1, 1, some "t1", none⟩], [⟨"d2", 2, 2, none, some "t2"⟩]]
      = deliver [] [[⟨"d1", 1, 1, some "t1", none⟩, ⟨"d2", 2, 2, none, some "t2"⟩]] :=
  (C2_chunking_irrelevant []).2 _ _ rfl

/-- C3: a device id that matches no roster member's `traccar_device_id` has no marker among
the rendered markers, whatever the live-position map holds for it. -/
theorem C3_no_orphan_markers (crewMembers : List Member)
    (memberPositions : JsObject LivePosition) (deviceId : String)
    (hunknown : ∀ m ∈ crewMembers, m.traccar_device_id ≠ deviceId) :
    ∀ mk ∈ memberMarkers crewMembers memberPositions, mk.deviceId ≠ deviceId := by
  intro mk hmk hd
  obtain ⟨e, _, hr⟩ := mem_memberMarkers.1 hmk
  obtain ⟨hfind, hdev, _, _⟩ := renderMarker_some hr
  obtain ⟨hmem, hid⟩ := getMemberForDevice_some hfind
  exact hunknown mk.member hmem (by rw [hid, ← hdev, hd])

/-- C3 at a concrete input: the roster has `M1` with device `abc`, the feed delivered a
position for `xyz`: the position is kept in the live map and no marker has device `xyz`. -/
theorem C3_no_orphan_markers_witness :
    (updatePositions [] [⟨"xyz", 5, 6, some "t", none⟩]).get "xyz" = some ⟨5, 6, some "t"⟩ ∧
    ∀ mk ∈ memberMarkers [⟨"m1", "M1", "#FF6B6B", "abc"⟩]
        (updatePositions [] [⟨"xyz", 5, 6, some "t", none⟩]), mk.deviceId ≠ "xyz" :=
  ⟨by decide, C3_no_orphan_markers _ _ "xyz" (by decide)⟩

/-- C4: a position delivered for a device no roster member carries is kept in the live
map and has no marker; once the roster is refreshed to the old members and a member whose
`traccar_device_id` is that device id, the markers computed from the new roster and the
same live map hold a marker for that member at the kept coordinates. -/
theorem C4_marker_appears_after_roster_refresh (prev : JsObject LivePosition)
    (batch : List Position) (pos : Position) (crewMembers crewMembers' : List Member)
    (member : Member)
    (hlast : lastFor pos.deviceId batch = some pos)
    (hunknown : ∀ m ∈ crewMembers, m.traccar_device_id ≠ pos.deviceId)
    (hrefresh : ∀ m, m ∈ crewMembers' ↔ m = member ∨ m ∈ crewMembers)
    (hid : member.traccar_device_id = pos.deviceId) :
    (updatePositions prev batch).get pos.deviceId = some pos.toLive ∧
    (∀ mk ∈ memberMarkers crewMembers (updatePositions prev batch),
      mk.deviceId ≠ pos.deviceId) ∧
    ({ deviceId := pos.deviceId, latitude := pos.latitude, longitude := pos.longitude,
       member := member } : Marker) ∈ memberMarkers crewMembers' (updatePositions prev batch) := by
  have hget := get_updatePositions_of_lastFor prev batch pos hlast
  refine ⟨hget, ?_, ?_⟩
  · intro mk hmk hd
    obtain ⟨e, _, hr⟩ := mem_memberMarkers.1 hmk
    obtain ⟨hfind, hdev, _, _⟩ := renderMarker_some hr
    obtain ⟨hmem, hid'⟩ := getMemberForDevice_some hfind
    exact hunknown mk.member hmem (by rw [hid', ← hdev, hd])
  · rw [mem_memberMarkers]
    refine ⟨(pos.deviceId, pos.toLive), JsObject.mem_of_get_eq_some _ _ _ hget, ?_⟩
    obtain ⟨m', hm'⟩ := getMemberForDevice_isSome ((hrefresh member).2 (Or.inl rfl))
    rw [hid] at hm'
    obtain ⟨hmem', hid'⟩ := getMemberForDevice_some hm'
    have hmm : m' = member := by
      rcases (hrefresh m').1 hmem' with h | h
      · exact h
      · exact absurd hid' (hunknown m' h)
    subst hmm
    simp [renderMarker, hm', Position.toLive]

/-- C4 at the scenario of the specification: roster `M1`/`abc`, a position for `xyz`
arrives (no marker), the roster becomes `M1`/`abc`, `M2`/`xyz`: a marker for `M2`. -/
theorem C4_marker_appears_after_roster_refresh_witness :
    memberMarkers [⟨"m1", "M1", "#FF6B6B", "abc"⟩]
        (updatePositions [] [⟨"xyz", 5, 6, some "t", none⟩]) = [] ∧
    ({ deviceId := "xyz", latitude := 5, longitude := 6,
       member := ⟨"m2", "M2", "#4ECDC4", "xyz"⟩ } : Marker) ∈
      memberMarkers [⟨"m1", "M1", "#FF6B6B", "abc"⟩, ⟨"m2", "M2", "#4ECDC4", "xyz"⟩]
        (updatePositions [] [⟨"xyz", 5, 6, some "t", none⟩]) :=
  ⟨by decide,
    (C4_marker_appears_after_roster_refresh [] [⟨"xyz", 5, 6, some "t", none⟩]
      ⟨"xyz", 5, 6, some "t", none⟩ [⟨"m1", "M1", "#FF6B6B", "abc"⟩]
      [⟨"m1", "M1", "#FF6B6B", "abc"⟩, ⟨"m2", "M2", "#4ECDC4", "xyz"⟩]
      ⟨"m2", "M2", "#4ECDC4", "xyz"⟩ (by decide) (by decide)
      (by intro m; simp [or_comm]) rfl).2.2⟩

/-- C5 (as stated, refuted): two roster members carry the device id `abc` and the live map
has an entry for `abc`: the only marker rendered is for the first member, and the second
member, whose device has an entry, has no marker. -/
theorem C5_second_member_of_shared_device_has_no_marker :
    (updatePositions [] [⟨"abc", 1, 1, some "t", none⟩]).get "abc" = some ⟨1, 1, some "t"⟩ ∧
    memberMarkers [⟨"m1", "M1", "#FF6B6B", "abc"⟩, ⟨"m2", "M2", "#4ECDC4", "abc"⟩]
        (updatePositions [] [⟨"abc", 1, 1, some "t", none⟩])
      = [⟨"abc", 1, 1, ⟨"m1", "M1", "#FF6B6B", "abc"⟩⟩] ∧
    (memberMarkers [⟨"m1", "M1", "#FF6B6B", "abc"⟩, ⟨"m2", "M2", "#4ECDC4", "abc"⟩]
        (updatePositions [] [⟨"abc", 1, 1, some "t", none⟩])).filter
      (fun mk => mk.member = ⟨"m2", "M2", "#4ECDC4", "abc"⟩) = [] := by
  decide

/-- C5 (amended): for every roster and every live-position map (an object: one entry per
key), each device id that has an entry and matches a roster member has exactly one marker,
at the entry's coordinates and for the first roster member carrying that device id; a
member whose device has no entry has no marker; and when no two roster members carry the
same `traccar_device_id`, every roster member whose device has an entry has exactly one
marker. -/
theorem C5_one_marker_per_resolved_device (crewMembers : List Member)
    (memberPositions : JsObject LivePosition) (hnd : memberPositions.keys.Nodup) :
    (∀ deviceId pos member, memberPositions.get deviceId = some pos →
      getMemberForDevice crewMembers deviceId = some member →
      (memberMarkers crewMembers memberPositions).filter (fun mk => mk.deviceId = deviceId)
        = [⟨deviceId, pos.latitude, pos.longitude, member⟩]) ∧
    (∀ m ∈ crewMembers, memberPositions.get m.traccar_device_id = none →
      ∀ mk ∈ memberMarkers crewMembers memberPositions, mk.member ≠ m) ∧
    ((crewMembers.map (fun m => m.traccar_device_id)).Nodup →
      ∀ m ∈ crewMembers, ∀ pos, memberPositions.get m.traccar_device_id = some pos →
        (memberMarkers crewMembers memberPositions).filter (fun mk => mk.member = m)
          = [⟨m.traccar_device_id, pos.latitude, pos.longitude, m⟩]) := by
  have hA : ∀ deviceId pos member, memberPositions.get deviceId = some pos →
      getMemberForDevice crewMembers deviceId = some member →
      (memberMarkers crewMembers memberPositions).filter (fun mk => mk.deviceId = deviceId)
        = [⟨deviceId, pos.latitude, pos.longitude, member⟩] := by
    intro deviceId pos member hget hfind
    rw [filter_deviceId_memberMarkers crewMembers memberPositions deviceId hnd, hget]
    simp [renderMarker, hfind]
  refine ⟨hA, ?_, ?_⟩
  · intro m _ hnone mk hmk hm
    obtain ⟨_, hid, hne⟩ := deviceId_of_mem_memberMarkers hmk
    rw [← hid, hm] at hne
    exact hne hnone
  · intro hdistinct m hm pos hget
    obtain ⟨m', hm'⟩ := getMemberForDevice_isSome hm
    obtain ⟨hmem', hid'⟩ := getMemberForDevice_some hm'
    have hmm : m' = m := List.inj_on_of_nodup_map hdistinct hmem' hm hid'
    subst hmm
    have hfilter : (memberMarkers crewMembers memberPositions).filter
          (fun mk => mk.member = m')
        = ((memberMarkers crewMembers memberPositions).filter
            (fun mk => mk.deviceId = m'.traccar_device_id)).filter
              (fun mk => mk.member = m') := by
      rw [List.filter_filter]
      apply List.filter_congr
      intro mk hmk
      obtain ⟨_, hid, _⟩ := deviceId_of_mem_memberMarkers hmk
      by_cases h : mk.member = m'
      · have : mk.deviceId = m'.traccar_device_id := by rw [← hid, h]
        simp [h, this]
      · simp [h]
    rw [hfilter, hA m'.traccar_device_id pos m' hget hm']
    simp

/-- C5 (amended) at a concrete input: two members with distinct devices `abc` and `xyz`,
positions for `abc` and for an unknown device: exactly one marker, for the first member. -/
theorem C5_one_marker_per_resolved_device_witness :
    (memberMarkers [⟨"m1", "M1", "#FF6B6B", "abc"⟩, ⟨"m2", "M2", "#4ECDC4", "xyz"⟩]
        [("abc", ⟨1, 1, some "t"⟩), ("7", ⟨3, 4, none⟩)]).filter
      (fun mk => mk.member = ⟨"m1", "M1", "#FF6B6B", "abc"⟩)
      = [⟨"abc", 1, 1, ⟨"m1", "M1", "#FF6B6B", "abc"⟩⟩] :=
  (C5_one_marker_per_resolved_device
    [⟨"m1", "M1", "#FF6B6B", "abc"⟩, ⟨"m2", "M2", "#4ECDC4", "xyz"⟩]
    [("abc", ⟨1, 1, some "t"⟩), ("7", ⟨3, 4, none⟩)] (by decide)).2.2 (by decide)
    ⟨"m1", "M1", "#FF6B6B", "abc"⟩ (by decide) ⟨1, 1, some "t"⟩ (by decide)

/-- C6: `getTrailGeoJSON` returns `null` when the member has 0 or 1 trail points, and else
a `LineString` with one coordinate per point, the i-th being `[longitude, latitude]` of the
i-th stored point. -/
theorem C6_trail_geometry (trails : JsObject (List TrailPoint)) (memberId : String) :
    (((trails.get memberId).getD []).length < 2 → getTrailGeoJSON trails memberId = none) ∧
    (2 ≤ ((trails.get memberId).getD []).length →
      ∃ f, getTrailGeoJSON trails memberId = some f ∧
        f.type = "Feature" ∧ f.geometry.type = "LineString" ∧
        f.geometry.coordinates.length = ((trails.get memberId).getD []).length ∧
        ∀ (i : Nat) (point : TrailPoint), ((trails.get memberId).getD [])[i]? = some point →
          f.geometry.coordinates[i]? = some [point.longitude, point.latitude]) := by
  constructor
  · intro h
    simp [getTrailGeoJSON, h]
  · intro h
    have h' : ¬ ((trails.get memberId).getD []).length < 2 := by omega
    refine ⟨{ type := "Feature"
              geometry :=
                { type := "LineString"
                  coordinates := ((trails.get memberId).getD []).map
                    (fun point => [point.longitude, point.latitude]) } },
      by simp only [getTrailGeoJSON, h', if_false], rfl, rfl, by simp, ?_⟩
    intro i point hi
    simp [List.getElem?_map, hi]

/-- C6 at a concrete input: no trail and a trail of a single point give `null`, a trail
of two points gives the line through them in stored order. -/
theorem C6_trail_geometry_witness :
    getTrailGeoJSON [("m1", [⟨"m1", "c", 1, 2, "t1", "2024-05-01"⟩])] "m2" = none ∧
    getTrailGeoJSON [("m1", [⟨"m1", "c", 1, 2, "t1", "2024-05-01"⟩])] "m1" = none ∧
    ∃ f, getTrailGeoJSON
        [("m1", [⟨"m1", "c", 1, 2, "t1", "2024-05-01"⟩, ⟨"m1", "c", 3, 4, "t2", "2024-05-01"⟩])]
        "m1" = some f ∧ f.geometry.coordinates = [[2, 1], [4, 3]] :=
  ⟨(C6_trail_geometry _ "m2").1 (by decide), (C6_trail_geometry _ "m1").1 (by decide),
    by
      obtain ⟨f, hf, _, _, _, _⟩ := (C6_trail_geometry
        [("m1", [⟨"m1", "c", 1, 2, "t1", "2024-05-01"⟩, ⟨"m1", "c", 3, 4, "t2", "2024-05-01"⟩])]
        "m1").2 (by decide)
      refine ⟨f, hf, ?_⟩
      have hf' : getTrailGeoJSON
          [("m1", [⟨"m1", "c", 1, 2, "t1", "2024-05-01"⟩,
            ⟨"m1", "c", 3, 4, "t2", "2024-05-01"⟩])] "m1"
          = some ⟨"Feature", ⟨"LineString", [[2, 1], [4, 3]]⟩⟩ := by decide
      rw [hf'] at hf
      cases hf
      rfl⟩

/-- C7: from the rows the store returns, `fetchTrails` builds a map in which every member id
occurring in the rows holds exactly that member's rows in their original relative order,
and no other key exists; so no group is empty, every group inherits any ordering of the
rows (ascending timestamps in particular), and the points of the map are the rows, none
lost and none twice. -/
theorem C7_grouping_by_member (prev : JsObject (List TrailPoint)) (rows : List TrailPoint) :
    (∀ k, (fetchTrails prev ⟨some rows, none⟩).get k =
      if k ∈ rows.map (fun r => r.member_id) then
        some (rows.filter (fun r => r.member_id = k))
      else none) ∧
    (∀ k group, (fetchTrails prev ⟨some rows, none⟩).get k = some group →
      group ≠ [] ∧
      ∀ R : TrailPoint → TrailPoint → Prop, rows.Pairwise R → group.Pairwise R) ∧
    (allPoints (fetchTrails prev ⟨some rows, none⟩)).Perm rows := by
  have hfetch : fetchTrails prev ⟨some rows, none⟩ = groupByMember rows := rfl
  rw [hfetch]
  refine ⟨get_groupByMember rows, ?_, allPoints_groupByMember rows⟩
  intro k group hget
  rw [get_groupByMember] at hget
  by_cases hmem : k ∈ rows.map (fun r => r.member_id)
  · rw [if_pos hmem] at hget
    cases hget
    constructor
    · obtain ⟨r, hr, hk⟩ := List.mem_map.1 hmem
      intro hnil
      have : r ∈ rows.filter (fun r => decide (r.member_id = k)) :=
        List.mem_filter.2 ⟨hr, by simpa using hk⟩
      rw [hnil] at this
      simp at this
    · intro R hR
      exact hR.sublist (List.filter_sublist rows)
  · rw [if_neg hmem] at hget
    cases hget

/-- C7 at a concrete input: rows of two members in ascending timestamp order. -/
theorem C7_grouping_by_member_witness :
    (fetchTrails [] ⟨some [⟨"m1", "c", 1, 1, "2024-05-01T10:00:00+00:00", "2024-05-01"⟩,
        ⟨"m2", "c", 2, 2, "2024-05-01T10:01:00+00:00", "2024-05-01"⟩,
        ⟨"m1", "c", 3, 3, "2024-05-01T10:02:00+00:00", "2024-05-01"⟩], none⟩).get "m1"
      = some [⟨"m1", "c", 1, 1, "2024-05-01T10:00:00+00:00", "2024-05-01"⟩,
          ⟨"m1", "c", 3, 3, "2024-05-01T10:02:00+00:00", "2024-05-01"⟩] ∧
    List.Pairwise (fun a b : TrailPoint => a.timestamp < b.timestamp)
      [⟨"m1", "c", 1, 1, "2024-05-01T10:00:00+00:00", "2024-05-01"⟩,
        ⟨"m1", "c", 3, 3, "2024-05-01T10:02:00+00:00", "2024-05-01"⟩] :=
  ⟨by decide,
    ((C7_grouping_by_member [] [⟨"m1", "c", 1, 1, "2024-05-01T10:00:00+00:00", "2024-05-01"⟩,
        ⟨"m2", "c", 2, 2, "2024-05-01T10:01:00+00:00", "2024-05-01"⟩,
        ⟨"m1", "c", 3, 3, "2024-05-01T10:02:00+00:00", "2024-05-01"⟩]).2.1 "m1" _
      (by decide)).2 _ (by
        refine List.pairwise_cons.2 ⟨?_, List.pairwise_cons.2 ⟨?_, List.pairwise_singleton _ _⟩⟩
        · intro a ha
          simp only [List.mem_cons, List.mem_singleton, List.not_mem_nil, or_false] at ha
          rcases ha with rfl | rfl <;> exact String.lt_iff_toList_lt.mpr (by decide)
        · intro a ha
          simp only [List.mem_singleton] at ha
          subst ha
          exact String.lt_iff_toList_lt.mpr (by decide))⟩

/-- C8 (the code at a failing input): member `m1` is recorded on 2024-05-01 and the trails
are loaded that day; the view stays open and the next day a point recorded for `m1` is
announced by the store. `handleNewTrailPoint` appends it to the points of the day before:
the trail of `m1` holds a point whose day bucket is not the current one, and the line
drawn joins the two days. -/
theorem C8_trail_keeps_points_of_the_day_before :
    formatDayMarker ⟨1714557600000, by decide⟩ = "2024-05-01" ∧
    formatDayMarker ⟨1714644000000, by decide⟩ = "2024-05-02" ∧
    saveLocationToDatabase [⟨"m1", "M1", "#FF6B6B", "7"⟩] "c1"
        ⟨1714557600000, by decide⟩ ⟨1714557600000, by decide⟩
        ⟨"7", 1, 2, some "2024-05-01T10:00:00.000+00:00", none⟩
      = some ⟨"m1", "c1", 1, 2, "2024-05-01T10:00:00.000+00:00", "2024-05-01"⟩ ∧
    saveLocationToDatabase [⟨"m1", "M1", "#FF6B6B", "7"⟩] "c1"
        ⟨1714644000000, by decide⟩ ⟨1714644000000, by decide⟩
        ⟨"7", 3, 4, some "2024-05-02T10:00:00.000+00:00", none⟩
      = some ⟨"m1", "c1", 3, 4, "2024-05-02T10:00:00.000+00:00", "2024-05-02"⟩ ∧
    (handleNewTrailPoint
        (fetchTrails [] ⟨some [⟨"m1", "c1", 1, 2, "2024-05-01T10:00:00.000+00:00",
          "2024-05-01"⟩], none⟩)
        ⟨"m1", "c1", 3, 4, "2024-05-02T10:00:00.000+00:00", "2024-05-02"⟩).get "m1"
      = some [⟨"m1", "c1", 1, 2, "2024-05-01T10:00:00.000+00:00", "2024-05-01"⟩,
          ⟨"m1", "c1", 3, 4, "2024-05-02T10:00:00.000+00:00", "2024-05-02"⟩] ∧
    getTrailGeoJSON
        (handleNewTrailPoint
          (fetchTrails [] ⟨some [⟨"m1", "c1", 1, 2, "2024-05-01T10:00:00.000+00:00",
            "2024-05-01"⟩], none⟩)
          ⟨"m1", "c1", 3, 4, "2024-05-02T10:00:00.000+00:00", "2024-05-02"⟩) "m1"
      = some ⟨"Feature", ⟨"LineString", [[2, 1], [4, 3]]⟩⟩ := by
  refine ⟨by decide, by decide, by decide, by decide, by decide, by decide⟩

/-- C9: for a position whose device resolves to a member, `saveLocationToDatabase` asks for
one insert; its `day_marker` is `formatDayMarker` of the clock at recording, whatever the
times of the position; its `timestamp` is `fixTime` when that is a non-empty string, else
`deviceTime` when that is one, else the ISO string of the clock at recording. -/
theorem C9_day_marker_is_recording_date (members : List Member) (crewId : String)
    (nowTimestamp nowDayMarker : JsDate) (position : Position) (member : Member)
    (hfound : members.find? (fun m => m.traccar_device_id == position.deviceId)
      = some member) :
    (∃ row, saveLocationToDatabase members crewId nowTimestamp nowDayMarker position
        = some row ∧
      row.member_id = member.id ∧
      row.day_marker = formatDayMarker nowDayMarker ∧
      (∀ s, position.fixTime = some s → s ≠ "" → row.timestamp = s) ∧
      (∀ s, position.fixTime = none ∨ position.fixTime = some "" →
        position.deviceTime = some s → s ≠ "" → row.timestamp = s) ∧
      (position.fixTime = none ∨ position.fixTime = some "" →
        position.deviceTime = none ∨ position.deviceTime = some "" →
        row.timestamp = toISOString nowTimestamp)) ∧
    (∀ fixTime deviceTime : Option String,
      (saveLocationToDatabase members crewId nowTimestamp nowDayMarker
        { position with fixTime := fixTime, deviceTime := deviceTime }).map
          (fun row => row.day_marker) = some (formatDayMarker nowDayMarker)) := by
  constructor
  · have hrow : saveLocationToDatabase members crewId nowTimestamp nowDayMarker position
        = some { member_id := member.id
                 crew_id := crewId
                 latitude := position.latitude
                 longitude := position.longitude
                 timestamp :=
                   match jsOr position.fixTime position.deviceTime with
                   | some s => if s = "" then toISOString nowTimestamp else s
                   | none => toISOString nowTimestamp
                 day_marker := formatDayMarker nowDayMarker } := by
      simp only [saveLocationToDatabase, hfound]
    refine ⟨_, hrow, rfl, rfl, ?_, ?_, ?_⟩
    · intro s hs hne
      simp [jsOr, hs, hne]
    · intro s hfix hdev hne
      rcases hfix with hfix | hfix <;> simp [jsOr, hfix, hdev, hne]
    · intro hfix hdev
      rcases hfix with hfix | hfix <;> rcases hdev with hdev | hdev <;>
        simp [jsOr, hfix, hdev]
  · intro fixTime deviceTime
    simp [saveLocationToDatabase, hfound]

/-- C9 at a concrete input: a position fixed on 2024-04-30 late in the evening and recorded
on 2024-05-01 is filed under 2024-05-01, with its own fix time as timestamp. -/
theorem C9_day_marker_is_recording_date_witness :
    saveLocationToDatabase [⟨"m1", "M1", "#FF6B6B", "7"⟩] "c1"
        ⟨1714521601000, by decide⟩ ⟨1714521601000, by decide⟩
        ⟨"7", 1, 2, some "2024-04-30T23:59:59.000+00:00", none⟩
      = some ⟨"m1", "c1", 1, 2, "2024-04-30T23:59:59.000+00:00", "2024-05-01"⟩ ∧
    ∀ fixTime deviceTime : Option String,
      (saveLocationToDatabase [⟨"m1", "M1", "#FF6B6B", "7"⟩] "c1"
        ⟨1714521601000, by decide⟩ ⟨1714521601000, by decide⟩
        { (⟨"7", 1, 2, some "2024-04-30T23:59:59.000+00:00", none⟩ : Position) with
          fixTime := fixTime, deviceTime := deviceTime }).map (fun row => row.day_marker)
        = some (formatDayMarker ⟨1714521601000, by decide⟩) :=
  ⟨by decide,
    (C9_day_marker_is_recording_date [⟨"m1", "M1", "#FF6B6B", "7"⟩] "c1"
      ⟨1714521601000, by decide⟩ ⟨1714521601000, by decide⟩
      ⟨"7", 1, 2, some "2024-04-30T23:59:59.000+00:00", none⟩ ⟨"m1", "M1", "#FF6B6B", "7"⟩
      (by decide)).2⟩

/-- C10 (as stated, refuted): on a device two hours east of UTC, the instant
2024-05-01T22:30:00Z falls on the calendar date 2024-05-02 while its day marker is
`2024-05-01`; the instants 21:30Z and 22:30Z of that day fall on two calendar dates of that
device and get one day marker. And the first instant of the year 10000, a valid `Date`,
gets the marker `+010000-01-01`, which is not of the form `YYYY-MM-DD`. -/
theorem C10_marker_is_not_the_local_date :
    formatDayMarker ⟨1714602600000, by decide⟩ = "2024-05-01" ∧
    calendarDate 120 ⟨1714602600000, by decide⟩ = (2024, 5, 2) ∧
    formatDayMarker ⟨1714599000000, by decide⟩ = formatDayMarker ⟨1714602600000, by decide⟩ ∧
    calendarDate 120 ⟨1714599000000, by decide⟩ ≠ calendarDate 120 ⟨1714602600000, by decide⟩ ∧
    formatDayMarker ⟨253402300800000, by decide⟩ = "+010000-01-01" ∧
    isDayMarkerForm (formatDayMarker ⟨253402300800000, by decide⟩) = false := by
  refine ⟨by decide, by decide, by decide, by decide, by decide, by decide⟩

/-- C10 (amended): for a valid `Date` whose year in UTC is within 0 to 9999,
`formatDayMarker` returns a string of exactly the form `YYYY-MM-DD`, made of the
four-digit year, the two-digit month and the two-digit day of the calendar date of the
instant in UTC. That date is the one of the UTC day number: the day number is the first
day of the year plus the start of the month plus the day of the month minus one. Two
instants get the same day marker exactly when they fall on the same calendar date in UTC,
that is on the same UTC day. -/
theorem C10_day_marker_of_date :
    (∀ d : JsDate, 0 ≤ (utcCalendarDate d).1 ∧ (utcCalendarDate d).1 ≤ 9999 →
      formatDayMarker d = String.mk (pad4 (utcCalendarDate d).1.toNat
        ++ '-' :: pad2 (utcCalendarDate d).2.1.toNat
        ++ '-' :: pad2 (utcCalendarDate d).2.2.toNat) ∧
      isDayMarkerForm (formatDayMarker d) = true) ∧
    (∀ d : JsDate,
      utcCalendarDate d = (yearFromTime d.time, monthFromTime d.time + 1, dateFromTime d.time) ∧
      dayFromYear (yearFromTime d.time) ≤ day d.time ∧
      day d.time < dayFromYear (yearFromTime d.time + 1) ∧
      0 ≤ monthFromTime d.time ∧ monthFromTime d.time ≤ 11 ∧
      1 ≤ dateFromTime d.time ∧ dateFromTime d.time ≤ 31 ∧
      day d.time = dayFromYear (yearFromTime d.time)
        + monthStart (monthFromTime d.time) (leapOfYear (yearFromTime d.time))
        + dateFromTime d.time - 1) ∧
    (∀ d₁ d₂ : JsDate,
      formatDayMarker d₁ = formatDayMarker d₂ ↔ utcCalendarDate d₁ = utcCalendarDate d₂) ∧
    (∀ d₁ d₂ : JsDate,
      utcCalendarDate d₁ = utcCalendarDate d₂ ↔ day d₁.time = day d₂.time) := by
  refine ⟨?_, ?_, ?_, utcCalendarDate_eq_iff⟩
  · intro d h
    rw [utcCalendarDate_eq] at h ⊢
    simp only at h ⊢
    refine ⟨?_, isDayMarkerForm_of_year d h.1 h.2⟩
    rw [formatDayMarker_eq]
    simp [isoDate, isoYear, h]
  · intro d
    have hs := yearFromDay_spec (day d.time)
    have hm := monthFromTime_range d.time
    have he := dateFromTime_range d.time
    refine ⟨utcCalendarDate_eq d, hs.1, hs.2, hm.1, hm.2, he.1, he.2, ?_⟩
    have hday := day_eq (day d.time)
    have hdate : dateFromTime d.time = dayWithinYear (day d.time) + 1
        - monthStart (monthFromTime d.time) (leapOfYear (yearFromTime d.time)) :=
      dateOfDayWithinYear_eq _ _
    unfold yearFromTime at *
    omega
  · intro d₁ d₂
    rw [formatDayMarker_eq_iff, utcCalendarDate_eq_iff]

/-- C10 (amended) at a concrete input: 2023-11-14T22:13:20Z and, later the same UTC day,
2023-11-14T23:59:59Z have the marker `2023-11-14`. -/
theorem C10_day_marker_of_date_witness :
    formatDayMarker ⟨1700000000000, by decide⟩ = "2023-11-14" ∧
    utcCalendarDate ⟨1700000000000, by decide⟩ = (2023, 11, 14) ∧
    isDayMarkerForm (formatDayMarker ⟨1700000000000, by decide⟩) = true ∧
    formatDayMarker ⟨1700000000000, by decide⟩ = formatDayMarker ⟨1700006399000, by decide⟩ :=
  ⟨by decide, by decide,
    (C10_day_marker_of_date.1 ⟨1700000000000, by decide⟩ (by decide)).2,
    (C10_day_marker_of_date.2.2.1 ⟨1700000000000, by decide⟩ ⟨1700006399000, by decide⟩).2
      (by decide)⟩

/-! ## Lemmas on the persistence loop -/

theorem saveLocationToDatabase_eq_none (members : List Member) (crewId : String)
    (nowTimestamp nowDayMarker : JsDate) (position : Position)
    (h : ∀ m ∈ members, m.traccar_device_id ≠ position.deviceId) :
    saveLocationToDatabase members crewId nowTimestamp nowDayMarker position = none := by
  have hfind : members.find? (fun m => m.traccar_device_id == position.deviceId) = none := by
    rw [List.find?_eq_none]
    intro m hm
    simpa using h m hm
  simp [saveLocationToDatabase, hfind]

theorem map_saveBatch (members : List Member) (crewId : String)
    (clock : Nat → JsDate × JsDate) (positions : List Position) (first : Nat) :
    (saveBatch members crewId clock first positions).map
        (fun r => (r.member_id, r.crew_id, r.latitude, r.longitude))
      = positions.filterMap (fun p =>
          (members.find? (fun m => m.traccar_device_id == p.deviceId)).map
            (fun m => (m.id, crewId, p.latitude, p.longitude))) := by
  induction positions generalizing first with
  | nil => simp [saveBatch]
  | cons p rest ih =>
    simp only [saveBatch, List.map_append, ih]
    cases hfind : members.find? (fun m => m.traccar_device_id == p.deviceId) with
    | none => simp [saveLocationToDatabase, hfind, List.filterMap_cons]
    | some m => simp [saveLocationToDatabase, hfind, List.filterMap_cons]

/-- C11: `handleNewTrailPoint(point)` gives the member of the point its previous sequence
(empty when it had none) with the point added at the end, whatever the timestamp of the
point, and leaves the sequence of every other member as it was. -/
theorem C11_new_point_is_appended (prev : JsObject (List TrailPoint)) (point : TrailPoint) :
    (handleNewTrailPoint prev point).get point.member_id
      = some ((prev.get point.member_id).getD [] ++ [point]) ∧
    ∀ memberId, memberId ≠ point.member_id →
      (handleNewTrailPoint prev point).get memberId = prev.get memberId := by
  constructor
  · simp [handleNewTrailPoint, JsObject.get_set]
  · intro memberId hne
    have : ¬ point.member_id = memberId := fun h => hne h.symm
    simp [handleNewTrailPoint, JsObject.get_set, this]

/-- C11 at a concrete input: a point of `m1` older than the last one is put at the end, the
trail of `m2` is untouched. -/
theorem C11_new_point_is_appended_witness :
    (handleNewTrailPoint
        [("m1", [⟨"m1", "c", 1, 1, "2024-05-01T10:05:00+00:00", "2024-05-01"⟩]),
         ("m2", [⟨"m2", "c", 2, 2, "2024-05-01T10:01:00+00:00", "2024-05-01"⟩])]
        ⟨"m1", "c", 3, 3, "2024-05-01T10:00:00+00:00", "2024-05-01"⟩).get "m1"
      = some [⟨"m1", "c", 1, 1, "2024-05-01T10:05:00+00:00", "2024-05-01"⟩,
          ⟨"m1", "c", 3, 3, "2024-05-01T10:00:00+00:00", "2024-05-01"⟩] ∧
    (handleNewTrailPoint
        [("m1", [⟨"m1", "c", 1, 1, "2024-05-01T10:05:00+00:00", "2024-05-01"⟩]),
         ("m2", [⟨"m2", "c", 2, 2, "2024-05-01T10:01:00+00:00", "2024-05-01"⟩])]
        ⟨"m1", "c", 3, 3, "2024-05-01T10:00:00+00:00", "2024-05-01"⟩).get "m2"
      = some [⟨"m2", "c", 2, 2, "2024-05-01T10:01:00+00:00", "2024-05-01"⟩] :=
  ⟨(C11_new_point_is_appended _ _).1,
    (C11_new_point_is_appended
      [("m1", [⟨"m1", "c", 1, 1, "2024-05-01T10:05:00+00:00", "2024-05-01"⟩]),
       ("m2", [⟨"m2", "c", 2, 2, "2024-05-01T10:01:00+00:00", "2024-05-01"⟩])]
      ⟨"m1", "c", 3, 3, "2024-05-01T10:00:00+00:00", "2024-05-01"⟩).2 "m2" (by decide)⟩

/-- C12: for a position whose device id equals no `traccar_device_id` of the roster,
`saveLocationToDatabase` asks for no insert; for a batch, the inserts asked are, in order,
those of the positions that resolve, each for the member it resolves to. -/
theorem C12_unresolved_position_is_not_persisted (members : List Member) (crewId : String)
    (clock : Nat → JsDate × JsDate) (first : Nat) :
    (∀ (nowTimestamp nowDayMarker : JsDate) (position : Position),
      (∀ m ∈ members, m.traccar_device_id ≠ position.deviceId) →
      saveLocationToDatabase members crewId nowTimestamp nowDayMarker position = none) ∧
    (∀ positions : List Position,
      (saveBatch members crewId clock first positions).map
          (fun r => (r.member_id, r.crew_id, r.latitude, r.longitude))
        = positions.filterMap (fun p =>
            (members.find? (fun m => m.traccar_device_id == p.deviceId)).map
              (fun m => (m.id, crewId, p.latitude, p.longitude)))) :=
  ⟨fun nowTimestamp nowDayMarker position h =>
      saveLocationToDatabase_eq_none members crewId nowTimestamp nowDayMarker position h,
    fun positions => map_saveBatch members crewId clock positions first⟩

/-- C12 at a concrete input: a batch with a position of the unknown device `9` and one of
the device `7` of member `m1`: one insert, for `m1`. -/
theorem C12_unresolved_position_is_not_persisted_witness :
    saveLocationToDatabase [⟨"m1", "M1", "#FF6B6B", "7"⟩] "c1"
        ⟨1714557600000, by decide⟩ ⟨1714557600000, by decide⟩
        ⟨"9", 5, 6, some "2024-05-01T10:00:00.000+00:00", none⟩ = none ∧
    saveBatch [⟨"m1", "M1", "#FF6B6B", "7"⟩] "c1"
        (fun _ => (⟨1714557600000, by decide⟩, ⟨1714557600000, by decide⟩)) 0
        [⟨"9", 5, 6, some "2024-05-01T10:00:00.000+00:00", none⟩,
         ⟨"7", 1, 2, some "2024-05-01T10:00:00.000+00:00", none⟩]
      = [⟨"m1", "c1", 1, 2, "2024-05-01T10:00:00.000+00:00", "2024-05-01"⟩] :=
  ⟨(C12_unresolved_position_is_not_persisted [⟨"m1", "M1", "#FF6B6B", "7"⟩] "c1"
      (fun _ => (⟨1714557600000, by decide⟩, ⟨1714557600000, by decide⟩)) 0).1
      ⟨1714557600000, by decide⟩ ⟨1714557600000, by decide⟩
      ⟨"9", 5, 6, some "2024-05-01T10:00:00.000+00:00", none⟩ (by decide),
    by decide⟩

/-! ## Lemmas on `createDevice` -/

theorem meet_of_normal (w : World) (r : Request) (h : ∀ f ∈ w.faults, f = Fault.normal) :
    w.meet r = (Fault.normal, { w with faults := w.faults.tail, log := w.log ++ [r] }) := by
  unfold World.meet
  cases hf : w.faults with
  | nil => rfl
  | cons f rest =>
    have : f = Fault.normal := h f (by simp [hf])
    simp [this]

theorem normal_tail (w : World) (h : ∀ f ∈ w.faults, f = Fault.normal) :
    ∀ f ∈ w.faults.tail, f = Fault.normal :=
  fun f hf => h f (List.mem_of_mem_tail hf)

theorem authenticate_of_normal (w : World) (h : ∀ f ∈ w.faults, f = Fault.normal) :
    authenticate w
      = ({ w with faults := w.faults.tail, log := w.log ++ [Request.postSession] },
          Except.ok ()) := by
  simp [authenticate, World.serveSession, meet_of_normal w _ h]

theorem getDevices_of_normal (w : World) (h : ∀ f ∈ w.faults, f = Fault.normal) :
    getDevices w
      = ({ w with faults := w.faults.tail, log := w.log ++ [Request.getDevices] },
          w.devices) := by
  simp [getDevices, World.serveDevices, meet_of_normal w _ h]

theorem createDevice_of_normal_existing (w : World) (name uniqueId : String) (d : Device)
    (h : ∀ f ∈ w.faults, f = Fault.normal)
    (hd : w.devices.find? (fun d => d.uniqueId == uniqueId) = some d) :
    createDevice w name uniqueId
      = ({ w with faults := w.faults.tail.tail
                  log := w.log ++ [Request.postSession, Request.getDevices] },
          Except.ok d) := by
  unfold createDevice
  rw [authenticate_of_normal w h]
  simp only
  rw [getDevices_of_normal _ (normal_tail w h)]
  simp [hd]

theorem serveCreate_of_normal_missing (w : World) (name uniqueId : String)
    (h : ∀ f ∈ w.faults, f = Fault.normal)
    (hd : w.devices.find? (fun d => d.uniqueId == uniqueId) = none) :
    w.serveCreate name uniqueId
      = ({ devices := w.devices ++ [⟨w.nextId, name, uniqueId⟩]
           nextId := w.nextId + 1
           faults := w.faults.tail
           log := w.log ++ [Request.postDevices name uniqueId] },
          Response.ok ⟨w.nextId, name, uniqueId⟩) := by
  have hany : w.devices.any (fun d => d.uniqueId == uniqueId) = false := by
    rw [List.any_eq_false]
    rw [List.find?_eq_none] at hd
    exact hd
  unfold World.serveCreate
  rw [meet_of_normal w _ h]
  simp only [hany]
  rfl

theorem createDevice_of_normal_missing (w : World) (name uniqueId : String)
    (h : ∀ f ∈ w.faults, f = Fault.normal)
    (hd : w.devices.find? (fun d => d.uniqueId == uniqueId) = none) :
    createDevice w name uniqueId
      = ({ devices := w.devices ++ [⟨w.nextId, name, uniqueId⟩]
           nextId := w.nextId + 1
           faults := w.faults.tail.tail.tail
           log := w.log ++ [Request.postSession, Request.getDevices,
             Request.postDevices name uniqueId] },
          Except.ok ⟨w.nextId, name, uniqueId⟩) := by
  unfold createDevice
  rw [authenticate_of_normal w h]
  simp only
  rw [getDevices_of_normal _ (normal_tail w h)]
  simp only [hd]
  rw [serveCreate_of_normal_missing
    { devices := w.devices, nextId := w.nextId, faults := w.faults.tail.tail,
      log := w.log ++ [Request.postSession] ++ [Request.getDevices] } name uniqueId
    (fun f hf => h f (List.mem_of_mem_tail (List.mem_of_mem_tail hf))) hd]
  simp

theorem log_authenticate (w : World) :
    (authenticate w).1.log = w.log ++ [Request.postSession] := by
  unfold authenticate World.serveSession World.meet
  cases w.faults.headD Fault.normal <;> rfl

theorem log_getDevices (w : World) :
    (getDevices w).1.log = w.log ++ [Request.getDevices] := by
  unfold getDevices World.serveDevices World.meet
  cases w.faults.headD Fault.normal <;> rfl

theorem log_serveCreate (w : World) (name uniqueId : String) :
    (w.serveCreate name uniqueId).1.log = w.log ++ [Request.postDevices name uniqueId] := by
  unfold World.serveCreate World.meet
  cases w.faults.headD Fault.normal with
  | normal =>
    simp only
    split_ifs <;> rfl
  | network => rfl
  | refused text => rfl

/-- C13 (as stated, refuted): the provider has no device `abc`; the first call creates it;
in the second call the lookup of the devices fails in transport, so that `getDevices`
gives `[]`: a second creation request is sent, refused as a duplicate, and the device is
found by the recovery lookup. Both calls return the same device, with two creation
requests. With the device registered from the start, one call whose lookup fails sends a
creation request as well. -/
theorem C13_failed_lookup_sends_second_creation_request :
    (createDevice ⟨[], 1, [Fault.normal, Fault.normal, Fault.normal, Fault.normal,
        Fault.network], []⟩ "Ann" "abc").2 = Except.ok ⟨1, "Ann", "abc"⟩ ∧
    (createDevice (createDevice ⟨[], 1, [Fault.normal, Fault.normal, Fault.normal,
        Fault.normal, Fault.network], []⟩ "Ann" "abc").1 "Ann" "abc").2
      = Except.ok ⟨1, "Ann", "abc"⟩ ∧
    (createDevice (createDevice ⟨[], 1, [Fault.normal, Fault.normal, Fault.normal,
        Fault.normal, Fault.network], []⟩ "Ann" "abc").1 "Ann" "abc").1.log
      = [Request.postSession, Request.getDevices, Request.postDevices "Ann" "abc",
         Request.postSession, Request.getDevices, Request.postDevices "Ann" "abc",
         Request.getDevices] ∧
    (createDevice ⟨[⟨1, "Ann", "abc"⟩], 2, [Fault.normal, Fault.network], []⟩
        "Ann" "abc").1.log
      = [Request.postSession, Request.getDevices, Request.postDevices "Ann" "abc",
         Request.getDevices] := by
  refine ⟨by decide, by decide, by decide, by decide⟩

/-- C13 (amended): for every provider state, when the requests are served normally (no
failure of the transport, no refusal), two calls of `createDevice` with the same
`uniqueId` return the same device, at most one creation request is sent over the two
calls, and when a device with that `uniqueId` is registered beforehand it is the one
returned, with no creation request and the registered devices unchanged. -/
theorem C13_createDevice_idempotent (w : World) (name₁ name₂ uniqueId : String)
    (hnormal : ∀ f ∈ w.faults, f = Fault.normal) :
    ∃ d, (createDevice w name₁ uniqueId).2 = Except.ok d ∧
      (createDevice (createDevice w name₁ uniqueId).1 name₂ uniqueId).2 = Except.ok d ∧
      (((createDevice (createDevice w name₁ uniqueId).1 name₂ uniqueId).1.log.drop
          w.log.length).filter Request.isCreate).length ≤ 1 ∧
      (∀ e, w.devices.find? (fun d => d.uniqueId == uniqueId) = some e →
        d = e ∧
        ((createDevice w name₁ uniqueId).1.log.drop w.log.length).filter Request.isCreate
          = [] ∧
        (createDevice w name₁ uniqueId).1.devices = w.devices) := by
  cases hfind : w.devices.find? (fun d => d.uniqueId == uniqueId) with
  | some e =>
    have h1 := createDevice_of_normal_existing w name₁ uniqueId e hnormal hfind
    have h2 := createDevice_of_normal_existing (createDevice w name₁ uniqueId).1 name₂
      uniqueId e (by
        rw [h1]
        exact fun f hf => hnormal f (List.mem_of_mem_tail (List.mem_of_mem_tail hf)))
      (by rw [h1]; exact hfind)
    refine ⟨e, by rw [h1], by rw [h2], ?_, ?_⟩
    · rw [h2, h1]
      simp [Request.isCreate]
    · intro e' he'
      cases he'
      refine ⟨rfl, ?_, ?_⟩
      · rw [h1]
        simp [Request.isCreate]
      · rw [h1]
  | none =>
    have h1 := createDevice_of_normal_missing w name₁ uniqueId hnormal hfind
    have hfind' : (createDevice w name₁ uniqueId).1.devices.find?
        (fun d => d.uniqueId == uniqueId) = some ⟨w.nextId, name₁, uniqueId⟩ := by
      rw [h1]
      simp [List.find?_append, hfind]
    have h2 := createDevice_of_normal_existing (createDevice w name₁ uniqueId).1 name₂
      uniqueId ⟨w.nextId, name₁, uniqueId⟩ (by
        rw [h1]
        exact fun f hf => hnormal f
          (List.mem_of_mem_tail (List.mem_of_mem_tail (List.mem_of_mem_tail hf))))
      hfind'
    refine ⟨⟨w.nextId, name₁, uniqueId⟩, by rw [h1], by rw [h2], ?_, ?_⟩
    · rw [h2, h1]
      simp [Request.isCreate]
    · intro e he
      cases he

/-- C13 (amended) at a concrete input: no device `abc` at first, normal service: the two
calls return the device created by the first, with one creation request in all. -/
theorem C13_createDevice_idempotent_witness :
    (createDevice ⟨[], 1, [], []⟩ "Ann" "abc").2 = Except.ok ⟨1, "Ann", "abc"⟩ ∧
    (createDevice (createDevice ⟨[], 1, [], []⟩ "Ann" "abc").1 "Bob" "abc").2
      = Except.ok ⟨1, "Ann", "abc"⟩ ∧
    ∃ d, (createDevice ⟨[], 1, [], []⟩ "Ann" "abc").2 = Except.ok d ∧
      (createDevice (createDevice ⟨[], 1, [], []⟩ "Ann" "abc").1 "Bob" "abc").2
        = Except.ok d ∧
      (((createDevice (createDevice ⟨[], 1, [], []⟩ "Ann" "abc").1 "Bob" "abc").1.log.drop
          0).filter Request.isCreate).length ≤ 1 :=
  ⟨by decide, by decide,
    let ⟨d, h1, h2, h3, _⟩ :=
      C13_createDevice_idempotent ⟨[], 1, [], []⟩ "Ann" "Bob" "abc" (by decide)
    ⟨d, h1, h2, h3⟩⟩

/-- C14 (as stated, refuted): the session is refused: `createDevice` throws with no creation
request sent. The device `abc` is registered, the lookup fails in transport and the
creation request is refused with a text that names neither `Duplicate entry` nor
`uniqueId`: `createDevice` throws without asking for the devices again. -/
theorem C14_throws_without_recovery_lookup :
    createDevice ⟨[], 1, [Fault.refused "HTTP 401 Unauthorized"], []⟩ "Ann" "abc"
      = (⟨[], 1, [], [Request.postSession]⟩,
          Except.error (JsError.message "Traccar authentication failed")) ∧
    createDevice ⟨[⟨1, "Ann", "abc"⟩], 2,
        [Fault.normal, Fault.network, Fault.refused "HTTP 400 Bad Request"], []⟩ "Ann" "abc"
      = (⟨[⟨1, "Ann", "abc"⟩], 2, [],
          [Request.postSession, Request.getDevices, Request.postDevices "Ann" "abc"]⟩,
          Except.error (JsError.message "Failed to create device: HTTP 400 Bad Request")) := by
  refine ⟨by decide, by decide⟩

/-- C14 (amended): when the creation request is answered not `ok` with a text that contains
`Duplicate entry` or `uniqueId`, the devices are asked again and, if they then hold a
device with the requested `uniqueId`, that device is returned instead of an error. When it
is answered not `ok` with a text that contains neither mark, `createDevice` throws and the
devices are not asked again. And `createDevice` throws only if authentication fails, or
the lookup finds no device and the creation request either fails in transport, or is
answered not `ok` with a text that contains neither mark (no request follows), or is
answered not `ok` with a text that contains a mark and the devices asked again hold no
device with that `uniqueId`. -/
theorem C14_createDevice_failure (w : World) (deviceName uniqueId : String) :
    (∀ w₁ w₂ w₃ w₄ devices text devicesRetry device,
      authenticate w = (w₁, Except.ok ()) →
      getDevices w₁ = (w₂, devices) →
      devices.find? (fun d => d.uniqueId == uniqueId) = none →
      w₂.serveCreate deviceName uniqueId = (w₃, Response.notOk text) →
      (jsIncludes text "Duplicate entry" = true ∨ jsIncludes text "uniqueId" = true) →
      getDevices w₃ = (w₄, devicesRetry) →
      devicesRetry.find? (fun d => d.uniqueId == uniqueId) = some device →
      createDevice w deviceName uniqueId = (w₄, Except.ok device) ∧
      w₄.log = w.log ++ [Request.postSession, Request.getDevices,
        Request.postDevices deviceName uniqueId, Request.getDevices]) ∧
    (∀ w₁ w₂ w₃ devices text,
      authenticate w = (w₁, Except.ok ()) →
      getDevices w₁ = (w₂, devices) →
      devices.find? (fun d => d.uniqueId == uniqueId) = none →
      w₂.serveCreate deviceName uniqueId = (w₃, Response.notOk text) →
      jsIncludes text "Duplicate entry" = false → jsIncludes text "uniqueId" = false →
      createDevice w deviceName uniqueId
        = (w₃, Except.error (JsError.message ("Failed to create device: " ++ text))) ∧
      (createDevice w deviceName uniqueId).1.log
        = w.log ++ [Request.postSession, Request.getDevices,
            Request.postDevices deviceName uniqueId]) ∧
    (∀ e, (createDevice w deviceName uniqueId).2 = Except.error e →
      (authenticate w).2 = Except.error e ∨
      ((getDevices (authenticate w).1).2.find? (fun d => d.uniqueId == uniqueId) = none ∧
        ((((getDevices (authenticate w).1).1.serveCreate deviceName uniqueId).2
            = Response.failed ∧
          (createDevice w deviceName uniqueId).1
            = ((getDevices (authenticate w).1).1.serveCreate deviceName uniqueId).1) ∨
         ∃ text, ((getDevices (authenticate w).1).1.serveCreate deviceName uniqueId).2
            = Response.notOk text ∧
          ((jsIncludes text "Duplicate entry" = false ∧ jsIncludes text "uniqueId" = false ∧
            (createDevice w deviceName uniqueId).1
              = ((getDevices (authenticate w).1).1.serveCreate deviceName uniqueId).1) ∨
           ((jsIncludes text "Duplicate entry" = true ∨ jsIncludes text "uniqueId" = true) ∧
            (getDevices ((getDevices (authenticate w).1).1.serveCreate deviceName
              uniqueId).1).2.find? (fun d => d.uniqueId == uniqueId) = none ∧
            (createDevice w deviceName uniqueId).1
              = (getDevices ((getDevices (authenticate w).1).1.serveCreate deviceName
                  uniqueId).1).1))))) := by
  refine ⟨?_, ?_, ?_⟩
  · intro w₁ w₂ w₃ w₄ devices text devicesRetry device ha hg hfind hc hmark hr hfind'
    constructor
    · have hmark' : (jsIncludes text "Duplicate entry" || jsIncludes text "uniqueId") = true := by
        rcases hmark with h | h <;> simp [h]
      simp only [createDevice, ha, hg, hfind, hc, hmark', if_true, hr, hfind']
    · have h1 := log_authenticate w
      have h2 := log_getDevices w₁
      have h3 := log_serveCreate w₂ deviceName uniqueId
      have h4 := log_getDevices w₃
      rw [ha] at h1
      rw [hg] at h2
      rw [hc] at h3
      rw [hr] at h4
      simp only at h1 h2 h3 h4
      rw [h4, h3, h2, h1]
      simp
  · intro w₁ w₂ w₃ devices text ha hg hfind hc hm1 hm2
    have hcreate : createDevice w deviceName uniqueId
        = (w₃, Except.error (JsError.message ("Failed to create device: " ++ text))) := by
      simp [createDevice, ha, hg, hfind, hc, hm1, hm2]
    refine ⟨hcreate, ?_⟩
    have h1 := log_authenticate w
    have h2 := log_getDevices w₁
    have h3 := log_serveCreate w₂ deviceName uniqueId
    rw [ha] at h1
    rw [hg] at h2
    rw [hc] at h3
    simp only at h1 h2 h3
    rw [hcreate]
    simp only
    rw [h3, h2, h1]
    simp
  · intro e he
    unfold createDevice at he ⊢
    rcases ha : authenticate w with ⟨w₁, ra⟩
    rw [ha] at he
    cases ra with
    | error e' =>
      left
      simpa using he
    | ok u =>
      right
      simp only at he ⊢
      rcases hg : getDevices w₁ with ⟨w₂, devices⟩
      rw [hg] at he
      simp only at he ⊢
      cases hfind : devices.find? (fun d => d.uniqueId == uniqueId) with
      | some d =>
        rw [hfind] at he
        cases he
      | none =>
        rw [hfind] at he
        refine ⟨rfl, ?_⟩
        simp only at he ⊢
        rcases hc : w₂.serveCreate deviceName uniqueId with ⟨w₃, rc⟩
        rw [hc] at he
        cases rc with
        | failed => exact Or.inl ⟨rfl, rfl⟩
        | ok device => cases he
        | notOk text =>
          right
          refine ⟨text, rfl, ?_⟩
          simp only at he ⊢
          by_cases hmark : (jsIncludes text "Duplicate entry" || jsIncludes text "uniqueId") = true
          · right
            rw [if_pos hmark] at he ⊢
            have hmark' : jsIncludes text "Duplicate entry" = true ∨
                jsIncludes text "uniqueId" = true := by
              simpa [Bool.or_eq_true] using hmark
            refine ⟨hmark', ?_⟩
            cases hfind' : (getDevices w₃).2.find? (fun d => d.uniqueId == uniqueId) with
            | none => exact ⟨rfl, rfl⟩
            | some device =>
              rcases hr : getDevices w₃ with ⟨w₄, devicesRetry⟩
              rw [hr] at he hfind'
              simp only at he hfind'
              rw [hfind'] at he
              cases he
          · left
            rw [if_neg hmark]
            simp only [Bool.or_eq_true, not_or, Bool.not_eq_true] at hmark
            exact ⟨hmark.1, hmark.2, rfl⟩

/-- C14 (amended) at a concrete input: the lookup of the first call fails in transport
while `abc` is registered: the creation request is refused as a duplicate, the devices are
asked again and the registered device is returned. -/
theorem C14_createDevice_failure_witness :
    createDevice ⟨[⟨1, "Ann", "abc"⟩], 2, [Fault.normal, Fault.network], []⟩ "Ann" "abc"
      = (⟨[⟨1, "Ann", "abc"⟩], 2, [],
          [Request.postSession, Request.getDevices, Request.postDevices "Ann" "abc",
            Request.getDevices]⟩, Except.ok ⟨1, "Ann", "abc"⟩) :=
  ((C14_createDevice_failure ⟨[⟨1, "Ann", "abc"⟩], 2, [Fault.normal, Fault.network], []⟩
      "Ann" "abc").1
    ⟨[⟨1, "Ann", "abc"⟩], 2, [Fault.network], [Request.postSession]⟩
    ⟨[⟨1, "Ann", "abc"⟩], 2, [], [Request.postSession, Request.getDevices]⟩
    ⟨[⟨1, "Ann", "abc"⟩], 2, [],
      [Request.postSession, Request.getDevices, Request.postDevices "Ann" "abc"]⟩
    ⟨[⟨1, "Ann", "abc"⟩], 2, [],
      [Request.postSession, Request.getDevices, Request.postDevices "Ann" "abc",
        Request.getDevices]⟩
    [] (duplicateText "abc") [⟨1, "Ann", "abc"⟩] ⟨1, "Ann", "abc"⟩
    (by decide) (by decide) (by decide) rfl (Or.inl (by decide)) (by decide)
    (by decide)).1

/-! ## Lemmas on the push channel -/

theorem reconnectAttempts_connectWebSocket (c : TraccarClient) :
    (connectWebSocket c).reconnectAttempts = c.reconnectAttempts := by
  unfold connectWebSocket
  cases c.ws with
  | none => rfl
  | some i =>
    simp only
    split_ifs <;> rfl

theorem timeouts_connectWebSocket (c : TraccarClient) :
    (connectWebSocket c).timeouts = c.timeouts := by
  unfold connectWebSocket
  cases c.ws with
  | none => rfl
  | some i =>
    simp only
    split_ifs <;> rfl

theorem reconnectAttempts_disconnect (c : TraccarClient) :
    (disconnect c).reconnectAttempts = c.reconnectAttempts := by
  unfold disconnect
  cases c.ws <;> rfl

theorem timeouts_disconnect (c : TraccarClient) :
    (disconnect c).timeouts = c.timeouts := by
  unfold disconnect
  cases c.ws <;> rfl

theorem reconnectDelay_le (reconnectAttempts : Nat) : reconnectDelay reconnectAttempts ≤ 30000 :=
  Nat.min_le_right _ _

theorem step_closed_of_lt (c : TraccarClient) (i : Nat) (h : c.reconnectAttempts < 5) :
    (step c (Event.socketClosed i)).reconnectAttempts = c.reconnectAttempts + 1 ∧
    (step c (Event.socketClosed i)).timeouts
      = c.timeouts ++ [reconnectDelay (c.reconnectAttempts + 1)] := by
  have h' : ¬ c.reconnectAttempts ≥ maxReconnectAttempts := by
    unfold maxReconnectAttempts; omega
  simp [step, onclose, reconnect, h']

theorem step_closed_of_ge (c : TraccarClient) (i : Nat) (h : 5 ≤ c.reconnectAttempts) :
    (step c (Event.socketClosed i)).reconnectAttempts = c.reconnectAttempts ∧
    (step c (Event.socketClosed i)).timeouts = c.timeouts := by
  have h' : c.reconnectAttempts ≥ maxReconnectAttempts := by
    unfold maxReconnectAttempts; omega
  simp [step, onclose, reconnect, h']

theorem step_other (c : TraccarClient) (e : Event) (ho : e.isOpened = false)
    (hc : e.isClosed = false) :
    (step c e).reconnectAttempts = c.reconnectAttempts ∧ (step c e).timeouts = c.timeouts := by
  cases e with
  | socketOpened i => simp [Event.isOpened] at ho
  | socketClosed i => simp [Event.isClosed] at hc
  | timeoutFired => exact ⟨reconnectAttempts_connectWebSocket c, timeouts_connectWebSocket c⟩
  | connectCalled => exact ⟨reconnectAttempts_connectWebSocket c, timeouts_connectWebSocket c⟩
  | disconnectCalled => exact ⟨reconnectAttempts_disconnect c, timeouts_disconnect c⟩

theorem reconnectAttempts_step_le (c : TraccarClient) (e : Event)
    (h : c.reconnectAttempts ≤ 5) : (step c e).reconnectAttempts ≤ 5 := by
  cases e with
  | socketOpened i => simp [step, onopen]
  | socketClosed i =>
    by_cases hlt : c.reconnectAttempts < 5
    · rw [(step_closed_of_lt c i hlt).1]; omega
    · rw [(step_closed_of_ge c i (by omega)).1]; exact h
  | timeoutFired => rw [(step_other c Event.timeoutFired rfl rfl).1]; exact h
  | connectCalled => rw [(step_other c Event.connectCalled rfl rfl).1]; exact h
  | disconnectCalled => rw [(step_other c Event.disconnectCalled rfl rfl).1]; exact h

theorem reconnectAttempts_run_le (events : List Event) (c : TraccarClient)
    (h : c.reconnectAttempts ≤ 5) : (run c events).reconnectAttempts ≤ 5 := by
  induction events generalizing c with
  | nil => simpa [run] using h
  | cons e rest ih =>
    have : run c (e :: rest) = run (step c e) rest := by simp [run]
    rw [this]
    exact ih _ (reconnectAttempts_step_le c e h)

theorem run_without_open (events : List Event) (c : TraccarClient)
    (hno : ∀ e ∈ events, e.isOpened = false) (hle : c.reconnectAttempts ≤ 5) :
    (run c events).reconnectAttempts
      = min (c.reconnectAttempts + events.countP Event.isClosed) 5 ∧
    (run c events).timeouts
      = c.timeouts ++ (List.range' (c.reconnectAttempts + 1)
          (min (c.reconnectAttempts + events.countP Event.isClosed) 5
            - c.reconnectAttempts)).map reconnectDelay := by
  induction events generalizing c with
  | nil =>
    have : min c.reconnectAttempts 5 = c.reconnectAttempts := by omega
    simp [run, this]
  | cons e rest ih =>
    have hrun : run c (e :: rest) = run (step c e) rest := by simp [run]
    have hno' : ∀ e' ∈ rest, e'.isOpened = false := fun e' he' =>
      hno e' (List.mem_cons_of_mem _ he')
    have ho : e.isOpened = false := hno e (List.mem_cons_self _ _)
    have ih' := ih (step c e) hno' (reconnectAttempts_step_le c e hle)
    rw [hrun, ih'.1, ih'.2]
    by_cases hc : e.isClosed = true
    · obtain ⟨i, rfl⟩ : ∃ i, e = Event.socketClosed i := by
        cases e with
        | socketClosed i => exact ⟨i, rfl⟩
        | socketOpened i => simp [Event.isClosed] at hc
        | timeoutFired => simp [Event.isClosed] at hc
        | connectCalled => simp [Event.isClosed] at hc
        | disconnectCalled => simp [Event.isClosed] at hc
      have hcount : (Event.socketClosed i :: rest).countP Event.isClosed
          = rest.countP Event.isClosed + 1 := by
        simp [List.countP_cons, Event.isClosed]
      rw [hcount]
      by_cases hlt : c.reconnectAttempts < 5
      · obtain ⟨h1, h2⟩ := step_closed_of_lt c i hlt
        rw [h1, h2]
        have hn : min (c.reconnectAttempts + (rest.countP Event.isClosed + 1)) 5
              - c.reconnectAttempts
            = (min (c.reconnectAttempts + 1 + rest.countP Event.isClosed) 5
              - (c.reconnectAttempts + 1)) + 1 := by omega
        rw [hn, List.range'_succ]
        refine ⟨by congr 1; omega, ?_⟩
        simp
      · obtain ⟨h1, h2⟩ := step_closed_of_ge c i (by omega)
        rw [h1, h2]
        have hn1 : min (c.reconnectAttempts + (rest.countP Event.isClosed + 1)) 5
            - c.reconnectAttempts = 0 := by omega
        have hn2 : min (c.reconnectAttempts + rest.countP Event.isClosed) 5
            - c.reconnectAttempts = 0 := by omega
        rw [hn1, hn2]
        refine ⟨by omega, rfl⟩
    · have hc' : e.isClosed = false := by simpa using hc
      obtain ⟨h1, h2⟩ := step_other c e ho hc'
      have hcount : (e :: rest).countP Event.isClosed = rest.countP Event.isClosed := by
        simp [List.countP_cons, hc']
      rw [h1, h2, hcount]
      exact ⟨rfl, rfl⟩

theorem disconnect_disconnect (c : TraccarClient) : disconnect (disconnect c) = disconnect c := by
  unfold disconnect
  cases c.ws <;> rfl

theorem ws_disconnect (c : TraccarClient) :
    (disconnect c).ws = none ∧ (disconnect c).listeners = [] := by
  unfold disconnect
  cases c.ws <;> exact ⟨rfl, rfl⟩

/-- C15 (as stated, refuted): the first closure of the channel of a new client sets a
timeout of 2000 ms, where the claim says min(1000 * 2^0, 30000) = 1000 ms. -/
theorem C15_first_delay_is_two_seconds :
    (run TraccarClient.create [Event.connectCalled, Event.socketClosed 0]).timeouts = [2000] ∧
    (run TraccarClient.create [Event.connectCalled, Event.socketClosed 0]).timeouts
      ≠ [min (1000 * 2 ^ (1 - 1)) 30000] := by
  refine ⟨by decide, by decide⟩

/-- C15 (amended): from `reconnectAttempts = 0` and with no successful open in between, the
delays set by the closures are, in order, min(1000 * 2^k, 30000) for k = 1, 2, ... up to the
number of closures and at most 5, that is 2 s, 4 s, 8 s, 16 s and 30 s; no delay is above
30 s. -/
theorem C15_reconnect_delays (c : TraccarClient) (events : List Event)
    (hzero : c.reconnectAttempts = 0) (hno : ∀ e ∈ events, e.isOpened = false) :
    (run c events).timeouts
      = c.timeouts ++ (List.range' 1 (min (events.countP Event.isClosed) 5)).map
          (fun k => min (1000 * 2 ^ k) 30000) ∧
    (List.range' 1 5).map (fun k => min (1000 * 2 ^ k) 30000)
      = [2000, 4000, 8000, 16000, 30000] ∧
    ∀ k, reconnectDelay k ≤ 30000 := by
  refine ⟨?_, by decide, reconnectDelay_le⟩
  have h := (run_without_open events c hno (by omega)).2
  rw [hzero] at h
  simpa [reconnectDelay] using h

/-- C15 (amended) at a concrete input: seven closures in a row, the timeouts firing in
between: five delays, 2 s, 4 s, 8 s, 16 s and 30 s. -/
theorem C15_reconnect_delays_witness :
    (run TraccarClient.create
        [Event.connectCalled, Event.socketClosed 0, Event.timeoutFired, Event.socketClosed 1,
         Event.timeoutFired, Event.socketClosed 2, Event.timeoutFired, Event.socketClosed 3,
         Event.timeoutFired, Event.socketClosed 4, Event.timeoutFired, Event.socketClosed 5,
         Event.socketClosed 5]).timeouts
      = [] ++ (List.range' 1 (min 7 5)).map (fun k => min (1000 * 2 ^ k) 30000) :=
  (C15_reconnect_delays TraccarClient.create
    [Event.connectCalled, Event.socketClosed 0, Event.timeoutFired, Event.socketClosed 1,
     Event.timeoutFired, Event.socketClosed 2, Event.timeoutFired, Event.socketClosed 3,
     Event.timeoutFired, Event.socketClosed 4, Event.timeoutFired, Event.socketClosed 5,
     Event.socketClosed 5] rfl (by decide)).1

/-- C16: from `reconnectAttempts = 0`, in a run of events with no successful open, the
reconnections set going are as many as the closures up to 5, and none after the fifth;
`reconnectAttempts` stays within 0 to 5 whatever happens, and it goes back to 0 only by a
successful open, which always sets it to 0. -/
theorem C16_reconnection_abandoned_after_five (c : TraccarClient) (events : List Event) :
    (c.reconnectAttempts = 0 → (∀ e ∈ events, e.isOpened = false) →
      (run c events).timeouts.length
        = c.timeouts.length + min (events.countP Event.isClosed) 5 ∧
      (run c events).reconnectAttempts = min (events.countP Event.isClosed) 5) ∧
    (c.reconnectAttempts ≤ 5 → (run c events).reconnectAttempts ≤ 5) ∧
    (∀ e, c.reconnectAttempts ≠ 0 → (step c e).reconnectAttempts = 0 → e.isOpened = true) ∧
    (∀ i, (step c (Event.socketOpened i)).reconnectAttempts = 0) := by
  refine ⟨?_, reconnectAttempts_run_le events c, ?_, ?_⟩
  · intro hzero hno
    obtain ⟨h1, h2⟩ := run_without_open events c hno (by omega)
    rw [hzero] at h1 h2
    refine ⟨?_, by simpa using h1⟩
    rw [h2]
    simp
  · intro e hne hstep
    cases e with
    | socketOpened i => rfl
    | socketClosed i =>
      exfalso
      by_cases hlt : c.reconnectAttempts < 5
      · rw [(step_closed_of_lt c i hlt).1] at hstep; omega
      · rw [(step_closed_of_ge c i (by omega)).1] at hstep; exact hne hstep
    | timeoutFired =>
      rw [(step_other c Event.timeoutFired rfl rfl).1] at hstep; exact absurd hstep hne
    | connectCalled =>
      rw [(step_other c Event.connectCalled rfl rfl).1] at hstep; exact absurd hstep hne
    | disconnectCalled =>
      rw [(step_other c Event.disconnectCalled rfl rfl).1] at hstep; exact absurd hstep hne
  · intro i
    simp [step, onopen]

/-- C16 at a concrete input: seven closures in a row: five reconnections are set going and
`reconnectAttempts` ends at 5. -/
theorem C16_reconnection_abandoned_after_five_witness :
    (run TraccarClient.create
        [Event.connectCalled, Event.socketClosed 0, Event.timeoutFired, Event.socketClosed 1,
         Event.timeoutFired, Event.socketClosed 2, Event.timeoutFired, Event.socketClosed 3,
         Event.timeoutFired, Event.socketClosed 4, Event.timeoutFired, Event.socketClosed 5,
         Event.socketClosed 5]).timeouts.length = 0 + min 7 5 ∧
    (run TraccarClient.create
        [Event.connectCalled, Event.socketClosed 0, Event.timeoutFired, Event.socketClosed 1,
         Event.timeoutFired, Event.socketClosed 2, Event.timeoutFired, Event.socketClosed 3,
         Event.timeoutFired, Event.socketClosed 4, Event.timeoutFired, Event.socketClosed 5,
         Event.socketClosed 5]).reconnectAttempts = min 7 5 :=
  (C16_reconnection_abandoned_after_five TraccarClient.create
    [Event.connectCalled, Event.socketClosed 0, Event.timeoutFired, Event.socketClosed 1,
     Event.timeoutFired, Event.socketClosed 2, Event.timeoutFired, Event.socketClosed 3,
     Event.timeoutFired, Event.socketClosed 4, Event.timeoutFired, Event.socketClosed 5,
     Event.socketClosed 5]).1 rfl (by decide)

/-- C17 (the code at a failing input): the channel is connected and open, and the user
calls `disconnect()`: `ws` is `null` and no listener is left. The close event of the
socket that was closed then runs `onclose`, which calls `reconnect`: a timeout of 2000 ms
is set, and when it fires `connectWebSocket` opens a new socket and holds it in `ws`,
though the user never called `connectWebSocket` again. -/
theorem C17_disconnect_is_followed_by_reconnection :
    run TraccarClient.create
        [Event.connectCalled, Event.socketOpened 0, Event.disconnectCalled]
      = ⟨none, 0, [], [ReadyState.CLOSING], []⟩ ∧
    run TraccarClient.create
        [Event.connectCalled, Event.socketOpened 0, Event.disconnectCalled,
         Event.socketClosed 0]
      = ⟨none, 1, [], [ReadyState.CLOSED], [2000]⟩ ∧
    run TraccarClient.create
        [Event.connectCalled, Event.socketOpened 0, Event.disconnectCalled,
         Event.socketClosed 0, Event.timeoutFired]
      = ⟨some 1, 1, [], [ReadyState.CLOSED, ReadyState.CONNECTING], [2000]⟩ := by
  refine ⟨by decide, by decide, by decide⟩

/-- C18: `getPositions` always returns a list: the empty list when the request fails or the
answer is not `ok`, and the list of the answer, as it is, when the answer is `ok`. -/
theorem C18_getPositions_never_fails (fetch : String → Response (List Position))
    (server : String) (deviceIds : List String) :
    (fetch (positionsUrl server deviceIds) = Response.failed →
      getPositions fetch server deviceIds = []) ∧
    (∀ text, fetch (positionsUrl server deviceIds) = Response.notOk text →
      getPositions fetch server deviceIds = []) ∧
    (∀ positions, fetch (positionsUrl server deviceIds) = Response.ok positions →
      getPositions fetch server deviceIds = positions) := by
  refine ⟨?_, ?_, ?_⟩
  · intro h
    simp [getPositions, h]
  · intro text h
    simp [getPositions, h]
  · intro positions h
    simp [getPositions, h]

/-- C18 at a concrete input: a failed request gives `[]`; an `ok` answer with twice the same
position is returned with both. -/
theorem C18_getPositions_never_fails_witness :
    getPositions (fun _ => Response.failed) "https://traccar" [] = [] ∧
    getPositions (fun _ => Response.ok [⟨"7", 1, 2, some "t", none⟩, ⟨"7", 1, 2, some "t", none⟩])
        "https://traccar" ["7"]
      = [⟨"7", 1, 2, some "t", none⟩, ⟨"7", 1, 2, some "t", none⟩] :=
  ⟨(C18_getPositions_never_fails (fun _ => Response.failed) "https://traccar" []).1 rfl,
    (C18_getPositions_never_fails
      (fun _ => Response.ok [⟨"7", 1, 2, some "t", none⟩, ⟨"7", 1, 2, some "t", none⟩])
      "https://traccar" ["7"]).2.2 _ rfl⟩

/-- C19: at a fixed instant and for `maxAge > 0`, with a rounding that keeps the order,
`calculateTrailOpacity` does not increase when the age `now - timestamp` increases, is never
below the floor `0.1`, and is the computed `1 - age / maxAge` whenever that is at least the
floor, and the floor otherwise. -/
theorem C19_opacity_decreases_with_age (rnd : ℚ → ℚ) (hrnd : Monotone rnd) (now : Int)
    (maxAge : ℚ) (hmax : 0 < maxAge) :
    (∀ t₁ t₂ : Int, now - t₁ ≤ now - t₂ →
      calculateTrailOpacity rnd now t₂ maxAge ≤ calculateTrailOpacity rnd now t₁ maxAge) ∧
    (∀ t : Int, rnd (1 / 10) ≤ calculateTrailOpacity rnd now t maxAge) ∧
    (∀ t : Int, calculateTrailOpacity rnd now t maxAge =
      if rnd (1 / 10) ≤ rnd (1 - rnd (((now - t : Int) : ℚ) / maxAge)) then
        rnd (1 - rnd (((now - t : Int) : ℚ) / maxAge))
      else rnd (1 / 10)) := by
  refine ⟨?_, ?_, ?_⟩
  · intro t₁ t₂ h
    unfold calculateTrailOpacity
    simp only
    apply max_le_max le_rfl
    apply hrnd
    have hq : ((now - t₁ : Int) : ℚ) ≤ ((now - t₂ : Int) : ℚ) := by exact_mod_cast h
    have hdiv : ((now - t₁ : Int) : ℚ) / maxAge ≤ ((now - t₂ : Int) : ℚ) / maxAge :=
      div_le_div_of_nonneg_right hq hmax.le
    have := hrnd hdiv
    linarith
  · intro t
    unfold calculateTrailOpacity
    exact le_max_left _ _
  · intro t
    unfold calculateTrailOpacity
    simp only
    split_ifs with h
    · exact max_eq_right h
    · exact max_eq_left (le_of_lt (not_le.mp h))

/-- C19 at a concrete input, with exact arithmetic and the default `maxAge` of one day: a
point 6 hours old has opacity 3/4, one 12 hours old 1/2, one 2 days old the floor 1/10. -/
theorem C19_opacity_decreases_with_age_witness :
    calculateTrailOpacity id 172800000 151200000 defaultMaxAge = 3 / 4 ∧
    calculateTrailOpacity id 172800000 129600000 defaultMaxAge = 1 / 2 ∧
    calculateTrailOpacity id 172800000 0 defaultMaxAge = 1 / 10 ∧
    calculateTrailOpacity id 172800000 129600000 defaultMaxAge
      ≤ calculateTrailOpacity id 172800000 151200000 defaultMaxAge :=
  ⟨by norm_num [calculateTrailOpacity, defaultMaxAge],
    by norm_num [calculateTrailOpacity, defaultMaxAge],
    by norm_num [calculateTrailOpacity, defaultMaxAge],
    (C19_opacity_decreases_with_age id monotone_id 172800000 defaultMaxAge
      (by norm_num [defaultMaxAge])).1 151200000 129600000 (by decide)⟩

/-- C20: `updatePositions` leaves the entry of every device id that does not occur in the
batch as it was, removes no device, keeps one entry per device id, and leaves the map as
it was for an empty batch, such as the one `getPositions` returns when the poll fails. -/
theorem C20_only_batch_devices_change (prev : JsObject LivePosition) (batch : List Position) :
    (∀ deviceId, deviceId ∉ batch.map (fun p => p.deviceId) →
      (updatePositions prev batch).get deviceId = prev.get deviceId) ∧
    (∀ deviceId, prev.get deviceId ≠ none →
      (updatePositions prev batch).get deviceId ≠ none) ∧
    (prev.keys.Nodup → (updatePositions prev batch).keys.Nodup) ∧
    updatePositions prev [] = prev ∧
    (∀ server deviceIds,
      updatePositions prev (getPositions (fun _ => Response.failed) server deviceIds) = prev) := by
  have hget : ∀ deviceId, (updatePositions prev batch).get deviceId =
      match lastFor deviceId batch with
      | some pos => some pos.toLive
      | none => prev.get deviceId := by
    intro deviceId
    rw [updatePositions_eq, JsObject.get_assignAll, getLast?_filter_assignments]
    cases lastFor deviceId batch <;> rfl
  have hempty : updatePositions prev [] = prev := by
    rw [updatePositions_eq]
    rfl
  refine ⟨?_, ?_, ?_, hempty, ?_⟩
  · intro deviceId hnot
    have hnil : batch.filter (fun p => decide (p.deviceId = deviceId)) = [] := by
      rw [List.filter_eq_nil_iff]
      intro p hp
      simp only [decide_eq_true_eq]
      intro h
      exact hnot (List.mem_map.2 ⟨p, hp, h⟩)
    rw [hget]
    simp [lastFor, hnil]
  · intro deviceId hne
    rw [hget]
    cases lastFor deviceId batch with
    | none => exact hne
    | some pos => simp
  · intro hnd
    rw [updatePositions_eq]
    exact JsObject.nodup_keys_assignAll _ prev hnd
  · intro server deviceIds
    exact hempty

/-- C20 at a concrete input: a batch for device `7` leaves the entry of device `8` as it
was and keeps one entry per device. -/
theorem C20_only_batch_devices_change_witness :
    (updatePositions [("7", ⟨1, 1, some "t0"⟩), ("8", ⟨2, 2, some "t0"⟩)]
        [⟨"7", 3, 3, some "t1", none⟩]).get "8" = some ⟨2, 2, some "t0"⟩ ∧
    (updatePositions [("7", ⟨1, 1, some "t0"⟩), ("8", ⟨2, 2, some "t0"⟩)]
        [⟨"7", 3, 3, some "t1", none⟩]).keys.Nodup :=
  ⟨by
      rw [(C20_only_batch_devices_change [("7", ⟨1, 1, some "t0"⟩), ("8", ⟨2, 2, some "t0"⟩)]
        [⟨"7", 3, 3, some "t1", none⟩]).1 "8" (by decide)]
      decide,
    (C20_only_batch_devices_change [("7", ⟨1, 1, some "t0"⟩), ("8", ⟨2, 2, some "t0"⟩)]
      [⟨"7", 3, 3, some "t1", none⟩]).2.2.1 (by decide)⟩

end CrewMap
